import Mathlib

/-!
Verification of the TankShooter simulation core against its design notes.

The TypeScript sources are shallowly embedded over exact rationals:
JavaScript numbers become `ℚ`, integer-valued quantities become `ℤ`/`ℕ`,
and fallible constructs return `Option`/`Bool` mirroring the source.
Irrational library primitives (Math.hypot, Math.cos, Math.sin, Math.SQRT2,
Math.sqrt(3)) are passed in as explicit parameters (a `Trig` record of
rational-valued stand-ins); theorems that depend on their metric meaning
take the defining equations (for example `len v ^ 2 = v.x ^ 2 + v.y ^ 2`)
as hypotheses at exactly the points where the source applies them.
-/

namespace TankShooter

/-- 2D vector over exact rationals, mirroring the `Vec2` interface. -/
structure V2 where
  x : ℚ
  y : ℚ
deriving DecidableEq, Repr

/-- Dot product of two vectors. -/
def dotV (a b : V2) : ℚ := a.x * b.x + a.y * b.y

/-- Squared distance between two points (the source inlines dx*dx + dy*dy). -/
def distSq (a b : V2) : ℚ := (a.x - b.x) ^ 2 + (a.y - b.y) ^ 2

/-! ## Constants from src/src/game/entities.ts, tank.ts and config.ts -/

def SQUARE_SIZE : ℚ := 38

def TRIANGLE_SIZE : ℚ := 43

def SQUARE_MAX_COUNT : ℕ := 18

def TRIANGLE_MAX_COUNT : ℕ := 5

def SQUARE_MAX_HP : ℚ := 10

def TRIANGLE_MAX_HP : ℚ := 30

def ENTITY_COLLISION_INSET : ℚ := 3

def ENTITY_BOUNCE : ℚ := 30

def HIT_FLASH_DURATION : ℚ := 6/100

def PLAYER_CONTACT_DPS : ℚ := 12

def TANK_SPEED : ℚ := 280

def TANK_ACCEL : ℚ := 600

def TANK_FRICTION : ℚ := 2

def BULLET_RADIUS : ℚ := 11

def MAX_STAT_POINTS : ℕ := 7

def MAX_SKILL_POINTS : ℤ := 33

def MAX_LEVEL : ℤ := 45

def BASE_HP : ℚ := 50

def HP_PER_LEVEL : ℚ := 2

def HP_PER_POINT : ℚ := 20

def SIZE_PER_LEVEL : ℚ := 1/100

def FOV_SCALE : ℚ := 3/1000

def REGEN_BASE_FACTOR : ℚ := 3/100

def REGEN_PER_POINT : ℚ := 12/100

def BODY_DAMAGE_BASE : ℚ := 5

def BODY_DAMAGE_MULT_SHAPE : ℚ := 4

def BODY_DAMAGE_MULT_TANK : ℚ := 6

def BODY_DAMAGE_MULT_PROJECTILE : ℚ := 1

def BASE_BULLET_SPEED : ℚ := 300

def BULLET_SPEED_PER_POINT : ℚ := 1/10

def BASE_BULLET_HP : ℚ := 2

def BULLET_PENETRATION_PER_POINT : ℚ := 3/4

def BASE_BULLET_DAMAGE : ℚ := 7

def BULLET_DAMAGE_PER_POINT : ℚ := 42857/100000

def BASE_RELOAD_TICKS : ℚ := 15

def RELOAD_POINT_FACTOR : ℚ := 914/1000

def TICK_DURATION : ℚ := 4/100

def BASE_TANK_SPEED : ℚ := 280

def SPEED_PER_POINT : ℚ := 6/100

def LEVEL_SPEED_SLOWDOWN : ℚ := 4/1000

def MIN_LEVEL_SPEED_MULTIPLIER : ℚ := 6/10

def HIGH_SPEED_DAMAGE_PENALTY : ℚ := 8/100

def IMPACT_SPEED_BONUS : ℚ := 1/4

/-- Shape kind of a creature entity. -/
inductive EntityKind
  | square
  | triangle
deriving DecidableEq, Repr

/-- Kind-specific base resistance, `SHAPE_BASE_DAMAGE` in stats.ts. -/
def SHAPE_BASE_DAMAGE : EntityKind → ℚ
  | .square => 2
  | .triangle => 4

/-! ## Progression model (stats.ts section of tank.ts) -/

/-- The 8-slot stat allocation, `StatPoints` in the source (each slot a
count of allocated points, 0..7 in reachable states). -/
structure StatPoints where
  maxHealth : ℕ
  healthRegen : ℕ
  bodyDamage : ℕ
  bulletSpeed : ℕ
  bulletPenetration : ℕ
  bulletDamage : ℕ
  reload : ℕ
  movementSpeed : ℕ
deriving DecidableEq, Repr

/-- The 8 allocatable slots, `StatKey` in the source. -/
inductive StatKey
  | maxHealth
  | healthRegen
  | bodyDamage
  | bulletSpeed
  | bulletPenetration
  | bulletDamage
  | reload
  | movementSpeed
deriving DecidableEq, Repr

/-- Read one slot of a `StatPoints` record. -/
def getStat (p : StatPoints) : StatKey → ℕ
  | .maxHealth => p.maxHealth
  | .healthRegen => p.healthRegen
  | .bodyDamage => p.bodyDamage
  | .bulletSpeed => p.bulletSpeed
  | .bulletPenetration => p.bulletPenetration
  | .bulletDamage => p.bulletDamage
  | .reload => p.reload
  | .movementSpeed => p.movementSpeed

/-- Replace one slot of a `StatPoints` record. -/
def setStat (p : StatPoints) (k : StatKey) (v : ℕ) : StatPoints :=
  match k with
  | .maxHealth => { p with maxHealth := v }
  | .healthRegen => { p with healthRegen := v }
  | .bodyDamage => { p with bodyDamage := v }
  | .bulletSpeed => { p with bulletSpeed := v }
  | .bulletPenetration => { p with bulletPenetration := v }
  | .bulletDamage => { p with bulletDamage := v }
  | .reload => { p with reload := v }
  | .movementSpeed => { p with movementSpeed := v }

/-- The list of the 8 slot values (Object.values of the record). -/
def statValues (p : StatPoints) : List ℕ :=
  [p.maxHealth, p.healthRegen, p.bodyDamage, p.bulletSpeed,
   p.bulletPenetration, p.bulletDamage, p.reload, p.movementSpeed]

/-- `sumStatPoints` from the source: total of the 8 slot values. -/
def sumStatPoints (p : StatPoints) : ℕ := (statValues p).sum

/-- Number of slots at the per-slot maximum MAX_STAT_POINTS = 7; the
allocation handler computes this as
Object.values(stats).filter(v ≥ MAX_STAT_POINTS).length. -/
def countMaxedStats (p : StatPoints) : ℕ :=
  (statValues p).countP (fun v => MAX_STAT_POINTS ≤ v)

/-- `totalSkillPointsForLevel` from the source. Math.floor becomes
`Int.floor`, Math.floor((clampedLevel - 33) / 3) is floor division by 3
on integers, hence `Int.fdiv`. -/
def totalSkillPointsForLevel (level : ℚ) : ℤ :=
  let clampedLevel : ℤ := max 1 (min MAX_LEVEL ⌊level⌋)
  let perLevel : ℤ := max 0 (min 27 (clampedLevel - 1))
  let level30 : ℤ := if 30 ≤ clampedLevel then 1 else 0
  let threeLevelSteps : ℤ := max 0 ((clampedLevel - 33).fdiv 3 + 1)
  let extra : ℤ := min 5 threeLevelSteps
  min MAX_SKILL_POINTS (perLevel + level30 + extra)

/-- `availableSkillPoints` from the source: remaining budget, floored at 0. -/
def availableSkillPoints (level : ℚ) (p : StatPoints) : ℤ :=
  max 0 (totalSkillPointsForLevel level - (sumStatPoints p : ℤ))

/-- `baseMaxHpForLevel` from the source. -/
def baseMaxHpForLevel (level : ℚ) : ℚ :=
  BASE_HP + HP_PER_LEVEL * max 0 (level - 1)

/-- `computeBulletHitDamage` from the source: full damage when the bullet
penetration budget covers the target base resistance, otherwise scaled by
the ratio of budget to resistance (with a 1e-6 floor on the denominator). -/
def computeBulletHitDamage (bulletDamage bulletHp targetBaseDamage : ℚ) : ℚ :=
  if bulletHp < targetBaseDamage then
    bulletDamage * (bulletHp / max (1/1000000) targetBaseDamage)
  else
    bulletDamage

/-- `impactMultiplierFromSpeed` from the source. -/
def impactMultiplierFromSpeed (speed : ℚ) : ℚ :=
  1 + max 0 (min 1 (speed / BASE_TANK_SPEED)) * IMPACT_SPEED_BONUS

/-- `applyTankDamage` from the source: subtract nonnegative damage, clamp
into [0, maxHp]. -/
def applyTankDamage (currentHp damage maxHp : ℚ) : ℚ :=
  max 0 (min maxHp (currentHp - max 0 damage))

/-- `applyTankHeal` from the source: add nonnegative healing, clamp into
[0, maxHp]. -/
def applyTankHeal (currentHp heal maxHp : ℚ) : ℚ :=
  max 0 (min maxHp (currentHp + max 0 heal))

/-- The derived stat bundle, `DerivedStats` in the source (reloadTicks is
integral in the source, kept as `ℤ` here). -/
structure DerivedStats where
  sizeMultiplier : ℚ
  fovMultiplier : ℚ
  maxHp : ℚ
  regenPerSecond : ℚ
  bodyDamageShape : ℚ
  bodyDamageTank : ℚ
  bodyDamageProjectile : ℚ
  bulletSpeed : ℚ
  bulletSpeedMultiplier : ℚ
  bulletDamage : ℚ
  bulletHpMax : ℚ
  reloadTicks : ℤ
  reloadSeconds : ℚ
  moveSpeed : ℚ
deriving Repr

/-- `computeDerivedStats` from the source, with Math.ceil as `Int.ceil`
and Math.pow with a natural exponent as monoid power. -/
def computeDerivedStats (level : ℚ) (points : StatPoints) : DerivedStats :=
  let sizeMultiplier := 1 + SIZE_PER_LEVEL * max 0 (level - 1)
  let fovMultiplier := 1 + FOV_SCALE * max 0 (level - 1)
  let maxHp := baseMaxHpForLevel level + (points.maxHealth : ℚ) * HP_PER_POINT
  let regenPerSecond :=
    (maxHp / 30) * (REGEN_BASE_FACTOR + REGEN_PER_POINT * (points.healthRegen : ℚ))
  let bodyBase := (points.bodyDamage : ℚ) + BODY_DAMAGE_BASE
  let bulletSpeedMultiplier := 1 + BULLET_SPEED_PER_POINT * (points.bulletSpeed : ℚ)
  let bulletSpeed := BASE_BULLET_SPEED * bulletSpeedMultiplier
  let bulletDamageBase :=
    BASE_BULLET_DAMAGE * (1 + BULLET_DAMAGE_PER_POINT * (points.bulletDamage : ℚ))
  let speedPenalty :=
    1 / (1 + max 0 (bulletSpeedMultiplier - 1) * HIGH_SPEED_DAMAGE_PENALTY)
  let bulletDamage := bulletDamageBase * speedPenalty
  let bulletHpMax :=
    BASE_BULLET_HP * (1 + BULLET_PENETRATION_PER_POINT * (points.bulletPenetration : ℚ))
  let reloadTicks : ℤ := ⌈BASE_RELOAD_TICKS * RELOAD_POINT_FACTOR ^ points.reload⌉
  let reloadSeconds := (reloadTicks : ℚ) * TICK_DURATION
  let levelSlowdown :=
    max MIN_LEVEL_SPEED_MULTIPLIER (1 - LEVEL_SPEED_SLOWDOWN * max 0 (level - 1))
  let moveSpeed :=
    BASE_TANK_SPEED * levelSlowdown * (1 + SPEED_PER_POINT * (points.movementSpeed : ℚ))
  { sizeMultiplier := sizeMultiplier
    fovMultiplier := fovMultiplier
    maxHp := maxHp
    regenPerSecond := regenPerSecond
    bodyDamageShape := bodyBase * BODY_DAMAGE_MULT_SHAPE
    bodyDamageTank := bodyBase * BODY_DAMAGE_MULT_TANK
    bodyDamageProjectile := bodyBase * BODY_DAMAGE_MULT_PROJECTILE
    bulletSpeed := bulletSpeed
    bulletSpeedMultiplier := bulletSpeedMultiplier
    bulletDamage := bulletDamage
    bulletHpMax := bulletHpMax
    reloadTicks := reloadTicks
    reloadSeconds := reloadSeconds
    moveSpeed := moveSpeed }

/-- Restatement of the skill-point growth in the words of the design
notes: one point per level up to 27 points of per-level growth, one bonus
point from level 30 on, one extra point every 3 levels starting at level
33, all capped at the overall maximum of 33. Used only to compare with
`totalSkillPointsForLevel` as translated from the source. -/
def steppedSkillPoints (level : ℚ) : ℤ :=
  let c : ℤ := max 1 (min 45 ⌊level⌋)
  min 33 (min 27 (max 0 (c - 1)) + (if 30 ≤ c then 1 else 0) +
    max 0 ((c - 33).fdiv 3 + 1))

/-! ## Stat allocation command (skill-point handler in the component) -/

/-- `INITIAL_STATS` from the component: all 8 slots at 0. -/
def INITIAL_STATS : StatPoints := ⟨0, 0, 0, 0, 0, 0, 0, 0⟩

/-- The skill-point allocation handler (number-key handler in the
component): reject if the slot is already at the per-slot maximum, reject
if the slot would become the 5th maxed slot (checked before the budget),
reject if no budget remains, otherwise increment the slot. -/
def allocateStatPoint (level : ℚ) (k : StatKey) (p : StatPoints) : StatPoints :=
  let current := getStat p k
  if MAX_STAT_POINTS ≤ current then p
  else if current = MAX_STAT_POINTS - 1 ∧ 4 ≤ countMaxedStats p then p
  else if availableSkillPoints level p ≤ 0 then p
  else setStat p k (current + 1)

/-- A sequence of allocation requests, each made at some level. -/
def runAllocate (reqs : List (ℚ × StatKey)) (p : StatPoints) : StatPoints :=
  reqs.foldl (fun q r => allocateStatPoint r.1 r.2 q) p

/-- The allocation invariant at a given level: budget respected, at most
4 maxed slots, every slot within the per-slot maximum. -/
def StatInvariant (level : ℚ) (p : StatPoints) : Prop :=
  (sumStatPoints p : ℤ) ≤ totalSkillPointsForLevel level ∧
  countMaxedStats p ≤ 4 ∧
  ∀ k : StatKey, getStat p k ≤ MAX_STAT_POINTS

/-- Contribution of one slot to the maxed-slot count. -/
def maxedFlag (v : ℕ) : ℕ := if MAX_STAT_POINTS ≤ v then 1 else 0

/-! ## Tank integration (integrateTank in tank.ts)

Math.hypot is passed in as `len`; theorems assume its defining equation
only at the one point where the source takes a norm that matters for the
conclusion (the speed clamp). -/

/-- Input-intent normalization step of `integrateTank` (the source
divides by Math.hypot(ix, iy) || 1 when the intent is nonzero). -/
def normalizeMoveInput (len : ℚ → ℚ → ℚ) (ix iy : ℚ) : ℚ × ℚ :=
  if ix ≠ 0 ∨ iy ≠ 0 then
    let l := len ix iy
    let l2 := if l = 0 then 1 else l
    (ix / l2, iy / l2)
  else (ix, iy)

/-- Velocity after acceleration and friction damping, before the speed
clamp (lines vel.x += .. through vel.y *= damp of the source). -/
def tankVelPreClamp (len : ℚ → ℚ → ℚ) (dt ix iy : ℚ) (vel : V2) : V2 :=
  let n := normalizeMoveInput len ix iy
  let vx := vel.x + n.1 * TANK_ACCEL * dt
  let vy := vel.y + n.2 * TANK_ACCEL * dt
  let damp := max 0 (1 - TANK_FRICTION * dt)
  ⟨vx * damp, vy * damp⟩

/-- Velocity after the speed clamp: rescaled to TANK_SPEED when the
measured speed exceeds it. -/
def tankVelClamped (len : ℚ → ℚ → ℚ) (dt ix iy : ℚ) (vel : V2) : V2 :=
  let v1 := tankVelPreClamp len dt ix iy vel
  let sp := len v1.x v1.y
  if TANK_SPEED < sp then ⟨v1.x * (TANK_SPEED / sp), v1.y * (TANK_SPEED / sp)⟩
  else v1

/-- `integrateTank` from the source: returns the new velocity and the new
position; each position axis is clamped into [-margin, map + margin] and
the corresponding velocity component is zeroed when clamping changed it. -/
def integrateTank (len : ℚ → ℚ → ℚ) (dt ix iy : ℚ) (vel pos : V2)
    (mapW mapH margin : ℚ) : V2 × V2 :=
  let v2 := tankVelClamped len dt ix iy vel
  let nextX := pos.x + v2.x * dt
  let nextY := pos.y + v2.y * dt
  let clampedX := max (-margin) (min (mapW + margin) nextX)
  let clampedY := max (-margin) (min (mapH + margin) nextY)
  (⟨if clampedX ≠ nextX then 0 else v2.x, if clampedY ≠ nextY then 0 else v2.y⟩,
   ⟨clampedX, clampedY⟩)

/-! ## Player contact damage and regeneration (onPlayerCollide and the
regen step of the main loop component) -/

/-- Tank health after body contact: contact damage-per-second scaled by
the overlap time slice, clamped at 0 (onPlayerCollide in the component). -/
def playerContactTankHp (tankHp overlapDt : ℚ) : ℚ :=
  max 0 (tankHp - PLAYER_CONTACT_DPS * overlapDt)

/-- Entity health after body contact: body damage scaled by the impact
multiplier of the current tank speed and the overlap time slice, clamped
at 0 (onPlayerCollide in the component). -/
def playerContactEntityHp (entityHp bodyDamageShape speed overlapDt : ℚ) : ℚ :=
  max 0 (entityHp - bodyDamageShape * impactMultiplierFromSpeed speed * overlapDt)

/-- Tank health after one regeneration step, clamped at the derived
maximum (the regen line of the frame loop). -/
def regenTankHp (maxHp tankHp regen dt : ℚ) : ℚ :=
  min maxHp (tankHp + regen * dt)

/-! ## Geometry kernel (entities.ts)

The trigonometric and square-root primitives of the source
(Math.cos, Math.sin, Math.hypot, Math.SQRT2, Math.sqrt(3)) are
irrational; they enter the embedding as the components of a `Trig`
record of rational-valued stand-ins, and metric facts about them are
assumed pointwise in the theorems that need them. -/

/-- Rational stand-ins for the irrational math primitives the source
uses: cos, sin, Math.hypot (as `len`), Math.SQRT2, Math.sqrt(3) and
Math.PI. -/
structure Trig where
  cos : ℚ → ℚ
  sin : ℚ → ℚ
  sqrt2 : ℚ
  sqrt3 : ℚ
  pi : ℚ
  len : ℚ → ℚ → ℚ

/-- `computeEntityCollisionRadius` from entities.ts: circle radius that
fits the shape minus the collision inset. -/
def computeEntityCollisionRadius (sqrt2 size : ℚ) : ℚ :=
  max 0 (size * sqrt2 / 2 - ENTITY_COLLISION_INSET)

/-- `triangleWorldVerts` from entities.ts: isosceles (equilateral)
triangle apex up, rotated and translated. -/
def triangleWorldVerts (t : Trig) (pos : V2) (angle size : ℚ) : V2 × V2 × V2 :=
  let s := max 1 size
  let halfSide := s / 2
  let height := s * t.sqrt3 / 2
  let ca := t.cos angle
  let sa := t.sin angle
  let rot := fun (p : V2) =>
    (⟨p.x * ca - p.y * sa + pos.x, p.x * sa + p.y * ca + pos.y⟩ : V2)
  (rot ⟨0, -(2/3) * height⟩, rot ⟨halfSide, (1/3) * height⟩,
    rot ⟨-halfSide, (1/3) * height⟩)

/-- `squareWorldVerts` from entities.ts. -/
def squareWorldVerts (t : Trig) (pos : V2) (angle size : ℚ) :
    V2 × V2 × V2 × V2 :=
  let s := max 1 size
  let hs := s / 2
  let ca := t.cos angle
  let sa := t.sin angle
  let rot := fun (p : V2) =>
    (⟨p.x * ca - p.y * sa + pos.x, p.x * sa + p.y * ca + pos.y⟩ : V2)
  (rot ⟨-hs, -hs⟩, rot ⟨hs, -hs⟩, rot ⟨hs, hs⟩, rot ⟨-hs, hs⟩)

/-- `pointInTriangle` from entities.ts: the barycentric test, with the
1e-8 floor on the denominator before inverting. -/
def pointInTriangle (p a b c : V2) : Bool :=
  let v0x := c.x - a.x
  let v0y := c.y - a.y
  let v1x := b.x - a.x
  let v1y := b.y - a.y
  let v2x := p.x - a.x
  let v2y := p.y - a.y
  let dot00 := v0x * v0x + v0y * v0y
  let dot01 := v0x * v1x + v0y * v1y
  let dot02 := v0x * v2x + v0y * v2y
  let dot11 := v1x * v1x + v1y * v1y
  let dot12 := v1x * v2x + v1y * v2y
  let invDen := 1 / max (1/100000000) (dot00 * dot11 - dot01 * dot01)
  let u := (dot11 * dot02 - dot01 * dot12) * invDen
  let v := (dot00 * dot12 - dot01 * dot02) * invDen
  decide (0 ≤ u ∧ 0 ≤ v ∧ u + v ≤ 1)

/-- The barycentric denominator of `pointInTriangle` (before the 1e-8
floor), named so that nondegeneracy can be hypothesized. -/
def triangleBaryDen (a b c : V2) : ℚ :=
  let v0x := c.x - a.x
  let v0y := c.y - a.y
  let v1x := b.x - a.x
  let v1y := b.y - a.y
  (v0x * v0x + v0y * v0y) * (v1x * v1x + v1y * v1y) -
    (v0x * v1x + v0y * v1y) * (v0x * v1x + v0y * v1y)

/-- `closestPointOnSegment` from entities.ts, with the interpolation
parameter clamped into [0, 1]. -/
def closestPointOnSegment (p a b : V2) : V2 :=
  let abx := b.x - a.x
  let aby := b.y - a.y
  let apx := p.x - a.x
  let apy := p.y - a.y
  let ab2 := abx * abx + aby * aby
  let t := if 0 < ab2 then max 0 (min 1 ((apx * abx + apy * aby) / ab2)) else 0
  ⟨a.x + abx * t, a.y + aby * t⟩

/-- `closestPointOnTriangle` from entities.ts. -/
def closestPointOnTriangle (p a b c : V2) : V2 :=
  if pointInTriangle p a b c then ⟨p.x, p.y⟩
  else
    let p1 := closestPointOnSegment p a b
    let p2 := closestPointOnSegment p b c
    let p3 := closestPointOnSegment p c a
    let d1 := distSq p1 p
    let d2 := distSq p2 p
    let d3 := distSq p3 p
    if d1 ≤ d2 ∧ d1 ≤ d3 then p1
    else if d2 ≤ d1 ∧ d2 ≤ d3 then p2
    else p3

/-- `circleIntersectsTriangle` from entities.ts. -/
def circleIntersectsTriangle (center : V2) (radius : ℚ) (a b c : V2) : Bool :=
  decide (distSq center (closestPointOnTriangle center a b c) ≤ radius ^ 2)

/-! ## Entity and bullet data (entities.ts / tank.ts)

Rendering-only fields (fill and stroke colors) are omitted; the optional
hit-flash timer is represented as a plain rational (0 when absent). -/

/-- A creature entity, `GameEntity` in entities.ts. -/
structure GameEntity where
  id : ℕ
  pos : V2
  vel : V2
  kick : V2
  angle : ℚ
  angVel : ℚ
  size : ℚ
  kind : EntityKind
  hp : ℚ
  maxHp : ℚ
  hitT : ℚ
deriving DecidableEq, Repr

/-- A projectile with the combat fields used by the bullet system
(id, position, velocity, radius, remaining lifetime, penetration budget
as hp, damage). -/
structure Bullet where
  id : ℕ
  pos : V2
  vel : V2
  radius : ℚ
  life : ℚ
  hp : ℚ
  damage : ℚ
deriving DecidableEq, Repr

/-- Camera rectangle, `CameraInfo` in config.ts (devicePixelRatio is
rendering-only and omitted). -/
structure CameraInfo where
  x : ℚ
  y : ℚ
  width : ℚ
  height : ℚ
deriving DecidableEq, Repr

/-! ## Bullet system (bulletSystem.ts) -/

/-- Narrow-phase test of updateBullets: an exact circle-versus-inset-
triangle test for triangles, an inflated-circle test for squares. -/
def bulletHitsEntity (t : Trig) (b : Bullet) (e : GameEntity) : Bool :=
  match e.kind with
  | .triangle =>
    let insetSize := max 1 (e.size - 2 * ENTITY_COLLISION_INSET)
    let v := triangleWorldVerts t e.pos e.angle insetSize
    circleIntersectsTriangle b.pos b.radius v.1 v.2.1 v.2.2
  | .square =>
    decide (distSq b.pos e.pos ≤
      (b.radius + computeEntityCollisionRadius t.sqrt2 e.size) ^ 2)

/-- The hit application of updateBullets: damage the entity (clamped at
0), arm its hit flash, push it away from the bullet, charge the bullet
penetration budget by the kind base resistance, zero the bullet lifetime
when the budget is exhausted; the Bool reports whether the entity died. -/
def applyBulletHit (t : Trig) (b : Bullet) (e : GameEntity) :
    Bullet × GameEntity × Bool :=
  let baseDamage := SHAPE_BASE_DAMAGE e.kind
  let actualDamage := computeBulletHitDamage b.damage b.hp baseDamage
  let newHp := max 0 (e.hp - actualDamage)
  let kick :=
    match e.kind with
    | .triangle =>
      let dxh := e.pos.x - b.pos.x
      let dyh := e.pos.y - b.pos.y
      let l := t.len dxh dyh
      let l2 := if l = 0 then 1 else l
      (⟨e.kick.x + dxh / l2 * ENTITY_BOUNCE,
        e.kick.y + dyh / l2 * ENTITY_BOUNCE⟩ : V2)
    | .square =>
      let dxp := b.pos.x - e.pos.x
      let dyp := b.pos.y - e.pos.y
      let l := t.len dxp dyp
      let l2 := if l = 0 then 1 else l
      (⟨e.kick.x - dxp / l2 * ENTITY_BOUNCE,
        e.kick.y - dyp / l2 * ENTITY_BOUNCE⟩ : V2)
  let newBulletHp := b.hp - baseDamage
  let newLife := if newBulletHp ≤ 0 then 0 else b.life
  ({ b with hp := newBulletHp, life := newLife },
   { e with hp := newHp, hitT := HIT_FLASH_DURATION, kick := kick },
   decide (newHp ≤ 0))

/-- Grid cell of a point (floor of position over cell size). The source
packs the pair into one 32-bit key, injective for the in-range cell
coordinates of this map; the cell is modeled as the pair itself. -/
def cellOf (cellSize : ℚ) (p : V2) : ℤ × ℤ :=
  (⌊p.x / cellSize⌋, ⌊p.y / cellSize⌋)

/-- The 3x3 neighborhood scanned around a bullet cell, in source order
(outer dx from -1 to 1, inner dy from -1 to 1). -/
def scanCells (c : ℤ × ℤ) : List (ℤ × ℤ) :=
  [(c.1 - 1, c.2 - 1), (c.1 - 1, c.2), (c.1 - 1, c.2 + 1),
   (c.1, c.2 - 1), (c.1, c.2), (c.1, c.2 + 1),
   (c.1 + 1, c.2 - 1), (c.1 + 1, c.2), (c.1 + 1, c.2 + 1)]

/-- State threaded through the per-bullet hit loop of updateBullets. -/
structure HitPassState where
  entities : List GameEntity
  removed : List ℕ
  removedSquares : ℕ
  removedTriangles : ℕ
deriving Repr

/-- One iteration of the labeled bullet loop of updateBullets: skip dead
bullets, scan the 3x3 cell neighborhood in order, apply the first hit
found (if any) and stop scanning for this bullet. -/
def processBullet (t : Trig) (cellSize : ℚ) (s : HitPassState) (b : Bullet) :
    HitPassState × Bullet :=
  if b.life ≤ 0 then (s, b)
  else
    let cands := (scanCells (cellOf cellSize b.pos)).flatMap
      (fun c => s.entities.filter (fun e => decide (cellOf cellSize e.pos = c)))
    match cands.find?
        (fun e => !s.removed.contains e.id && bulletHitsEntity t b e) with
    | none => (s, b)
    | some e =>
      let r := applyBulletHit t b e
      let killed := r.2.2
      ({ entities := s.entities.map (fun x => if x.id = e.id then r.2.1 else x),
         removed := if killed then e.id :: s.removed else s.removed,
         removedSquares :=
           if killed ∧ e.kind = .square then s.removedSquares + 1
           else s.removedSquares,
         removedTriangles :=
           if killed ∧ e.kind = .triangle then s.removedTriangles + 1
           else s.removedTriangles },
       r.1)

/-- The whole per-bullet hit loop, in bullet order. -/
def hitPass (t : Trig) (cellSize : ℚ) (bullets : List Bullet)
    (s0 : HitPassState) : HitPassState × List Bullet :=
  bullets.foldl (fun acc b =>
    let r := processBullet t cellSize acc.1 b
    (r.1, acc.2 ++ [r.2])) (s0, [])

/-- One of the post-removal respawn while-loops of updateBullets: retry
while kills of the kind remain and the frame budget allows, stopping at
the first failed spawn; returns (spawned, spawnsThisFrame, entities). -/
def respawnLoop (spawnFn : List GameEntity → Bool × List GameEntity)
    (maxSpawns : ℕ) : ℕ → ℕ → ℕ → List GameEntity → ℕ × ℕ × List GameEntity
  | 0, spawned, stf, es => (spawned, stf, es)
  | rem + 1, spawned, stf, es =>
    if maxSpawns ≤ spawned then (spawned, stf, es)
    else
      let r := spawnFn es
      if r.1 then respawnLoop spawnFn maxSpawns rem (spawned + 1) (stf + 1) r.2
      else (spawned, stf, r.2)

/-- The view-margin test of the cull pass: strictly inside the camera
rectangle expanded by 40 px. -/
def bulletInView (camera : CameraInfo) (p : V2) : Bool :=
  decide (-40 < p.x - camera.x ∧ p.x - camera.x < camera.width + 40 ∧
    -40 < p.y - camera.y ∧ p.y - camera.y < camera.height + 40)

/-- Bullet motion integration (the forEach at the top of updateBullets). -/
def integrateBullet (dt : ℚ) (b : Bullet) : Bullet :=
  { b with pos := ⟨b.pos.x + b.vel.x * dt, b.pos.y + b.vel.y * dt⟩,
           life := b.life - dt }

/-- The collision phase of updateBullets: build the spatial hash cell
size, run the hit loop, then remove killed entities and run the bounded
respawn loops; returns (entities, bullets, spawnsThisFrame). -/
def updateBulletsCore (t : Trig) (entities : List GameEntity)
    (bullets1 : List Bullet) (spawnsThisFrame maxSpawnsPerFrame : ℕ)
    (spawnSquare spawnTriangle : List GameEntity → Bool × List GameEntity) :
    List GameEntity × List Bullet × ℕ :=
  if entities ≠ [] ∧ bullets1 ≠ [] then
    let maxBulletRadius := bullets1.foldl
      (fun m b => if m < b.radius then b.radius else m) BULLET_RADIUS
    let cellSize := max SQUARE_SIZE (max TRIANGLE_SIZE (maxBulletRadius * 2))
    let r := hitPass t cellSize bullets1 ⟨entities, [], 0, 0⟩
    if r.1.removed ≠ [] then
      let es := r.1.entities.filter (fun e => !r.1.removed.contains e.id)
      let r1 := respawnLoop spawnSquare maxSpawnsPerFrame r.1.removedSquares
        0 spawnsThisFrame es
      let r2 := respawnLoop spawnTriangle maxSpawnsPerFrame r.1.removedTriangles
        r1.1 r1.2.1 r1.2.2
      (r2.2.2, r.2, r2.2.1)
    else (r.1.entities, r.2, spawnsThisFrame)
  else (entities, bullets1, spawnsThisFrame)

/-- `updateBullets` from bulletSystem.ts: integrate motion, resolve hits
through the spatial hash, respawn for kills, then cull bullets that are
expired or out of view; returns (bullets, entities, spawnsThisFrame). -/
def updateBullets (t : Trig) (bullets : List Bullet)
    (entities : List GameEntity) (dt : ℚ) (camera : CameraInfo)
    (spawnsThisFrame maxSpawnsPerFrame : ℕ)
    (spawnSquare spawnTriangle : List GameEntity → Bool × List GameEntity) :
    List Bullet × List GameEntity × ℕ :=
  let bullets1 := bullets.map (integrateBullet dt)
  let r := updateBulletsCore t entities bullets1 spawnsThisFrame
    maxSpawnsPerFrame spawnSquare spawnTriangle
  let nextBullets := r.2.1.filter
    (fun b => !decide (b.life ≤ 0) && bulletInView camera b.pos)
  (nextBullets, r.1, r.2.2)

/-- A concrete Trig record for witnesses (angle-0 rotation, rational
square-root stand-ins). -/
def trigZero : Trig :=
  ⟨fun _ => 1, fun _ => 0, 99/70, 26/15, 314159/100000, fun _ _ => 0⟩

/-- A spawn callback that always fails and leaves the collection alone. -/
def noSpawn : List GameEntity → Bool × List GameEntity := fun es => (false, es)

/-- Scenario A bullet: damage 7, penetration budget 2, lifetime 1. -/
def scenarioBullet : Bullet := ⟨5, ⟨0, 0⟩, ⟨0, 0⟩, 11, 1, 2, 7⟩

/-- Scenario A square: 10/10 hp at the origin. -/
def scenarioSquare : GameEntity :=
  ⟨1, ⟨0, 0⟩, ⟨0, 0⟩, ⟨0, 0⟩, 0, 0, SQUARE_SIZE, .square, 10, 10, 0⟩

/-- Scenario B triangle: 30/30 hp. -/
def scenarioTriangle : GameEntity :=
  ⟨2, ⟨0, 0⟩, ⟨0, 0⟩, ⟨0, 0⟩, 0, 0, TRIANGLE_SIZE, .triangle, 30, 30, 0⟩

/-- The bullet of the broad-phase counterexample: radius 20 (so the cell
size this tick is max(38, 43, 40) = 43), placed near the top of its cell. -/
def gapBullet : Bullet := ⟨3, ⟨429/10, 0⟩, ⟨0, 0⟩, 20, 1, 2, 7⟩

/-- The square of the broad-phase counterexample, two cells away. -/
def gapSquare : GameEntity :=
  ⟨4, ⟨86, 0⟩, ⟨0, 0⟩, ⟨0, 0⟩, 0, 0, SQUARE_SIZE, .square, 10, 10, 0⟩

/-! ## Entity lifecycle: random spawning (C6) -/

def ENTITY_SPEED_MIN : ℚ := 5

def ENTITY_SPEED_MAX : ℚ := 8

def ENTITY_ANG_MIN : ℚ := -6/10

def ENTITY_ANG_MAX : ℚ := 6/10

/-- The Math.random() draws one spawn attempt consumes, in source order:
position x and y fractions, speed, direction, angular velocity, initial
angle. -/
structure RandVals where
  rx : ℚ
  ry : ℚ
  rs : ℚ
  rd : ℚ
  rav : ℚ
  rang : ℚ
deriving DecidableEq, Repr

/-- Count of live entities of one kind. -/
def countKind (k : EntityKind) (es : List GameEntity) : ℕ :=
  (es.filter (fun e => decide (e.kind = k))).length

/-- The per-kind population-cap check inside the spawn attempt loop. -/
def spawnCapReached (kind : EntityKind) (es : List GameEntity) : Bool :=
  match kind with
  | .square => decide (SQUARE_MAX_COUNT ≤ countKind .square es)
  | .triangle => decide (TRIANGLE_MAX_COUNT ≤ countKind .triangle es)

/-- The entity pushed on a successful spawn attempt. -/
def mkSpawnedEntity (t : Trig) (kind : EntityKind) (nextId : ℕ) (x y : ℚ)
    (r : RandVals) : GameEntity :=
  let speed := ENTITY_SPEED_MIN + r.rs * (ENTITY_SPEED_MAX - ENTITY_SPEED_MIN)
  let dir := r.rd * t.pi * 2
  let angVel := ENTITY_ANG_MIN + r.rav * (ENTITY_ANG_MAX - ENTITY_ANG_MIN)
  let size := if kind = .square then SQUARE_SIZE else TRIANGLE_SIZE
  let maxHp := if kind = .square then SQUARE_MAX_HP else TRIANGLE_MAX_HP
  { id := nextId, pos := ⟨x, y⟩,
    vel := ⟨t.cos dir * speed, t.sin dir * speed⟩,
    kick := ⟨0, 0⟩, angle := r.rang * t.pi * 2, angVel := angVel,
    size := size, kind := kind, hp := maxHp, maxHp := maxHp, hitT := 0 }

/-- The attempt loop of spawnEntityRandomAvoidingPlayers: skip attempts
inside the safe radius; at the first attempt outside, fail if the kind
population cap is reached, otherwise push exactly one new entity. -/
def spawnEntityRandomAux (t : Trig) (kind : EntityKind) (es : List GameEntity)
    (nextId : ℕ) (playerPos : V2) (mapW mapH safeRadius : ℚ) :
    List RandVals → Bool × List GameEntity × ℕ
  | [] => (false, es, nextId)
  | r :: rest =>
    let x := r.rx * mapW
    let y := r.ry * mapH
    if (x - playerPos.x) ^ 2 + (y - playerPos.y) ^ 2 < safeRadius ^ 2 then
      spawnEntityRandomAux t kind es nextId playerPos mapW mapH safeRadius rest
    else if spawnCapReached kind es then (false, es, nextId)
    else (true, es ++ [mkSpawnedEntity t kind nextId x y r], nextId + 1)

/-- `spawnEntityRandomAvoidingPlayers` from entities.ts: 20 attempts
drawn from the random stream; returns (success, entities, next id). -/
def spawnEntityRandomAvoidingPlayers (t : Trig) (es : List GameEntity)
    (nextId : ℕ) (playerPos : V2) (mapW mapH safeRadius : ℚ)
    (kind : EntityKind) (s : ℕ → RandVals) : Bool × List GameEntity × ℕ :=
  spawnEntityRandomAux t kind es nextId playerPos mapW mapH safeRadius
    ((List.range 20).map s)

/-! ## Shape-on-shape SAT collisions (entities.ts, C7) -/

/-- `normalize` from the SAT section of entities.ts, with the 1e-6 floor
applied when the measured length is 0. -/
def normalizeV (t : Trig) (v : V2) : V2 :=
  let l := t.len v.x v.y
  let l2 := if l = 0 then 1/1000000 else l
  ⟨v.x / l2, v.y / l2⟩

/-- `edgeNormal` from entities.ts: normalized outward normal of an edge. -/
def edgeNormal (t : Trig) (a b : V2) : V2 :=
  normalizeV t ⟨-(b.y - a.y), b.x - a.x⟩

/-- `projectPolygon` from entities.ts: smallest and largest dot product
of the axis with the vertices (running min/max starting at the first
vertex). -/
def projectPolygon (axis : V2) : List V2 → ℚ × ℚ
  | [] => (0, 0)
  | v :: vs =>
    vs.foldl (fun mm p =>
      let d := dotV axis p
      if d < mm.1 then (d, mm.2)
      else if mm.2 < d then (mm.1, d) else mm) (dotV axis v, dotV axis v)

/-- The edges (vertex, successor) of a polygon in source order. -/
def polyEdges (verts : List V2) : List (V2 × V2) := verts.zip (verts.rotate 1)

/-- The axes tested by satMTV for one polygon. -/
def axesOf (t : Trig) (verts : List V2) : List V2 :=
  (polyEdges verts).map (fun e => edgeNormal t e.1 e.2)

/-- The sign adjustment of satMTV: flip the axis when it points against
the center-to-center direction. -/
def orientAxis (axis dir : V2) : V2 :=
  if dotV axis dir < 0 then ⟨-axis.x, -axis.y⟩ else axis

/-- Projected interval overlap of two polygons along one axis,
min(pa.max, pb.max) - max(pa.min, pb.min) as in satMTV. -/
def overlapOn (axis : V2) (A B : List V2) : ℚ :=
  min (projectPolygon axis A).2 (projectPolygon axis B).2 -
    max (projectPolygon axis A).1 (projectPolygon axis B).1

/-- The axis loop of satMTV: early exit (none) when an axis separates,
otherwise track the axis of strictly smallest overlap, sign-oriented at
update time. -/
def satLoop (A B : List V2) (dir : V2) :
    List V2 → Option (ℚ × V2) → Option (Option (ℚ × V2))
  | [], st => some st
  | axis :: rest, st =>
    let ov := overlapOn axis A B
    if ov ≤ 0 then none
    else
      let st' := match st with
        | none => some (ov, orientAxis axis dir)
        | some (m0, ax0) =>
          if ov < m0 then some (ov, orientAxis axis dir) else some (m0, ax0)
      satLoop A B dir rest st'

/-- `satMTV` from entities.ts: axes of A then axes of B; returns the
minimum-translation vector (oriented axis scaled by minimum overlap) or
none when separated (or when no axis exists). -/
def satMTV (t : Trig) (vertsA vertsB : List V2) (cAx cAy cBx cBy : ℚ) :
    Option V2 :=
  match satLoop vertsA vertsB ⟨cBx - cAx, cBy - cAy⟩
      (axesOf t vertsA ++ axesOf t vertsB) none with
  | some (some (m, ax)) => some ⟨ax.x * m, ax.y * m⟩
  | _ => none

/-- The inset collision polygon used by resolveEntityEntityCollisions
(INSET = 6 there). -/
def entityInsetVerts (t : Trig) (e : GameEntity) : List V2 :=
  let size := max 1 (e.size - 6)
  match e.kind with
  | .triangle =>
    let v := triangleWorldVerts t e.pos e.angle size
    [v.1, v.2.1, v.2.2]
  | .square =>
    let v := squareWorldVerts t e.pos e.angle size
    [v.1, v.2.1, v.2.2.1, v.2.2.2]

/-- Inner loop of resolveEntityEntityCollisions: entity at index i
against each later entity; the verts of the first entity are computed
once and kept stale across its inner iterations, as in the source. -/
def innerLoop (t : Trig) (vertsA : List V2) :
    GameEntity → List GameEntity → GameEntity × List GameEntity
  | a, [] => (a, [])
  | a, b :: rest =>
    let vertsB := entityInsetVerts t b
    match satMTV t vertsA vertsB a.pos.x a.pos.y b.pos.x b.pos.y with
    | none =>
      let r := innerLoop t vertsA a rest
      (r.1, b :: r.2)
    | some mtv =>
      let n := normalizeV t mtv
      let a2 := { a with
        pos := (⟨a.pos.x - mtv.x * (1/2), a.pos.y - mtv.y * (1/2)⟩ : V2),
        kick := (⟨a.kick.x - n.x * 120, a.kick.y - n.y * 120⟩ : V2) }
      let b2 := { b with
        pos := (⟨b.pos.x + mtv.x * (1/2), b.pos.y + mtv.y * (1/2)⟩ : V2),
        kick := (⟨b.kick.x + n.x * 120, b.kick.y + n.y * 120⟩ : V2) }
      let r := innerLoop t vertsA a2 rest
      (r.1, b2 :: r.2)

/-- Outer loop of resolveEntityEntityCollisions over ascending indices.
The fuel argument (instantiated with the list length, which the inner
loop preserves) only serves Lean termination checking; it never runs out
on the actual calls. -/
def outerLoop (t : Trig) : ℕ → List GameEntity → List GameEntity
  | 0, _ => []
  | _ + 1, [] => []
  | fuel + 1, a :: rest =>
    let vertsA := entityInsetVerts t a
    let r := innerLoop t vertsA a rest
    r.1 :: outerLoop t fuel r.2

/-- `resolveEntityEntityCollisions` from entities.ts (BOUNCE = 120). -/
def resolveEntityEntityCollisions (t : Trig) (es : List GameEntity) :
    List GameEntity :=
  if es.length ≤ 1 then es else outerLoop t es.length es

/-- Translate a polygon by a vector. -/
def shiftPoly (d : V2) (vs : List V2) : List V2 :=
  vs.map (fun p => ⟨p.x + d.x, p.y + d.y⟩)

/-- Negate a vector. -/
def negV (v : V2) : V2 := ⟨-v.x, -v.y⟩

/-- The projection intervals of A and B along an axis are ordered
consistently with the axis direction (A not past B on either end). -/
def orderedOn (axis : V2) (A B : List V2) : Prop :=
  (projectPolygon axis A).1 ≤ (projectPolygon axis B).1 ∧
    (projectPolygon axis A).2 ≤ (projectPolygon axis B).2

/-- Trig oracle for the concentric-squares scenario: angle 0 is the
identity rotation, angle 1 the rational rotation with cosine 3/5 and
sine 4/5; every vector measured by Math.hypot in the scenario has
squared length 1024, so its length is 32. -/
def trigCE : Trig where
  cos := fun a => if a = 0 then 1 else 3/5
  sin := fun a => if a = 0 then 0 else 4/5
  sqrt2 := 99/70
  sqrt3 := 26/15
  pi := 314159/100000
  len := fun x y => if x * x + y * y = 1024 then 32 else 1

/-- Axis-aligned square of size 38 centered at the origin. -/
def ceA : GameEntity :=
  ⟨0, ⟨0, 0⟩, ⟨0, 0⟩, ⟨0, 0⟩, 0, 0, 38, .square, 10, 10, 0⟩

/-- Square of size 38 centered at the origin, rotated by the angle with
cosine 3/5 and sine 4/5. -/
def ceB : GameEntity :=
  ⟨1, ⟨0, 0⟩, ⟨0, 0⟩, ⟨0, 0⟩, 1, 0, 38, .square, 10, 10, 0⟩

/-- The first entity after resolution of the concentric pair: pushed
down by half the MTV (0, 32) and kicked down by 120. -/
def ceA2 : GameEntity :=
  { ceA with pos := (⟨0, -16⟩ : V2), kick := (⟨0, -120⟩ : V2) }

/-- The second entity after resolution of the concentric pair. -/
def ceB2 : GameEntity :=
  { ceB with pos := (⟨0, 16⟩ : V2), kick := (⟨0, 120⟩ : V2) }

/-- Trig oracle for the separated-squares witness: all angles are 0, the
edge normals have squared length 1024 (length 32) and the MTV has
squared length 144 (length 12). -/
def trigAxis : Trig where
  cos := fun _ => 1
  sin := fun _ => 0
  sqrt2 := 99/70
  sqrt3 := 26/15
  pi := 314159/100000
  len := fun x y =>
    if x * x + y * y = 1024 then 32
    else if x * x + y * y = 144 then 12 else 1

/-- Axis-aligned square of size 38 at the origin. -/
def satSquareA : GameEntity :=
  ⟨0, ⟨0, 0⟩, ⟨0, 0⟩, ⟨0, 0⟩, 0, 0, 38, .square, 10, 10, 0⟩

/-- Axis-aligned square of size 38 at (20, 0), overlapping the first by
12 px along the x axis after the 6 px inset. -/
def satSquareB : GameEntity :=
  ⟨1, ⟨20, 0⟩, ⟨0, 0⟩, ⟨0, 0⟩, 0, 0, 38, .square, 10, 10, 0⟩

theorem totalSkillPoints_intCast (n : ℤ) :
    totalSkillPointsForLevel (n : ℚ) =
      min MAX_SKILL_POINTS
        (max 0 (min 27 (max 1 (min MAX_LEVEL n) - 1)) +
          (if 30 ≤ max 1 (min MAX_LEVEL n) then 1 else 0) +
          min 5 (max 0 ((max 1 (min MAX_LEVEL n) - 33).fdiv 3 + 1))) := by
  simp [totalSkillPointsForLevel]

/-- C2: totalSkillPointsForLevel returns 0 at level 1, 9 at level 10, 28
at level 30 and 33 at level 45, and on every input it agrees with the
stepped formula: +1 point per level up to 27 points of per-level growth,
+1 bonus point at level 30 and above, +1 extra point every 3 levels
starting at level 33, capped at the overall maximum of 33. -/
theorem totalSkillPointsForLevel_values_and_stepped :
    totalSkillPointsForLevel 1 = 0 ∧
    totalSkillPointsForLevel 10 = 9 ∧
    totalSkillPointsForLevel 30 = 28 ∧
    totalSkillPointsForLevel 45 = 33 ∧
    ∀ level : ℚ, totalSkillPointsForLevel level = steppedSkillPoints level := by
  have hf : ∀ m : ℤ, m.fdiv 3 = m / 3 := fun m => Int.fdiv_eq_ediv _ (by norm_num)
  refine ⟨?_, ?_, ?_, ?_, ?_⟩
  · rw [show (1 : ℚ) = ((1 : ℤ) : ℚ) by norm_num, totalSkillPoints_intCast]
    decide
  · rw [show (10 : ℚ) = ((10 : ℤ) : ℚ) by norm_num, totalSkillPoints_intCast]
    decide
  · rw [show (30 : ℚ) = ((30 : ℤ) : ℚ) by norm_num, totalSkillPoints_intCast]
    decide
  · rw [show (45 : ℚ) = ((45 : ℤ) : ℚ) by norm_num, totalSkillPoints_intCast]
    decide
  · intro level
    simp only [totalSkillPointsForLevel, steppedSkillPoints, MAX_SKILL_POINTS,
      MAX_LEVEL, hf]
    generalize ⌊level⌋ = n
    split_ifs <;> omega

/-- C3 counterexample: with a target base resistance below the 1e-6
denominator floor, the partial-damage branch scales by
bulletHp / max(1e-6, target), not by bulletHp / target: at bulletDamage 1,
bulletHp 1/4000000, target 1/2000000 (all nonnegative, bulletHp < target)
the source returns 1/4 while the claimed ratio formula gives 1/2. -/
theorem computeBulletHitDamage_epsilon_counterexample :
    0 ≤ (1 : ℚ) ∧ 0 ≤ (1/4000000 : ℚ) ∧ 0 ≤ (1/2000000 : ℚ) ∧
    (1/4000000 : ℚ) < 1/2000000 ∧
    computeBulletHitDamage 1 (1/4000000) (1/2000000) = 1/4 ∧
    (1 : ℚ) * ((1/4000000) / (1/2000000)) = 1/2 ∧
    computeBulletHitDamage 1 (1/4000000) (1/2000000) ≠
      1 * ((1/4000000 : ℚ) / (1/2000000)) := by
  refine ⟨by norm_num, by norm_num, by norm_num, by norm_num, ?_, by norm_num, ?_⟩
  · unfold computeBulletHitDamage
    rw [if_pos (by norm_num)]
    norm_num
  · unfold computeBulletHitDamage
    rw [if_pos (by norm_num)]
    norm_num

/-- C4 helper fact and C3 amended claim: for nonnegative inputs,
computeBulletHitDamage returns the full bullet damage whenever the
penetration budget is at least the target base resistance (equality
included), and in the partial branch scales by
bulletHp / max(1e-6, targetBaseDamage); that ratio coincides with the
plain ratio bulletHp / targetBaseDamage whenever the resistance is at
least the 1e-6 floor. -/
theorem computeBulletHitDamage_amended (d h t : ℚ) (_hd : 0 ≤ d) (_hh : 0 ≤ h) :
    (t ≤ h → computeBulletHitDamage d h t = d) ∧
    (h < t → computeBulletHitDamage d h t = d * (h / max (1/1000000) t)) ∧
    (h < t → 1/1000000 ≤ t → computeBulletHitDamage d h t = d * (h / t)) := by
  refine ⟨?_, ?_, ?_⟩
  · intro hle
    unfold computeBulletHitDamage
    rw [if_neg (not_lt.mpr hle)]
  · intro hlt
    unfold computeBulletHitDamage
    rw [if_pos hlt]
  · intro hlt hfloor
    unfold computeBulletHitDamage
    rw [if_pos hlt, max_eq_right hfloor]

theorem computeBulletHitDamage_amended_witness :
    0 ≤ (5 : ℚ) ∧ 0 ≤ (2 : ℚ) ∧ (2 : ℚ) ≤ 2 ∧ (2 : ℚ) < 4 ∧
    (1/1000000 : ℚ) ≤ 4 ∧
    computeBulletHitDamage 5 2 2 = 5 ∧
    computeBulletHitDamage 5 2 4 = 5 * ((2 : ℚ) / 4) := by
  refine ⟨by norm_num, by norm_num, by norm_num, by norm_num, by norm_num, ?_, ?_⟩
  · exact (computeBulletHitDamage_amended 5 2 2 (by norm_num) (by norm_num)).1
      (by norm_num)
  · exact (computeBulletHitDamage_amended 5 2 4 (by norm_num) (by norm_num)).2.2
      (by norm_num) (by norm_num)

theorem getStat_setStat (p : StatPoints) (k : StatKey) (v : ℕ) (k' : StatKey) :
    getStat (setStat p k v) k' = if k' = k then v else getStat p k' := by
  cases k <;> cases k' <;> simp [getStat, setStat]

theorem maxedFlag_eq_zero (v : ℕ) (h : v ≤ 6) : maxedFlag v = 0 := by
  unfold maxedFlag MAX_STAT_POINTS
  rw [if_neg]
  omega

theorem maxedFlag_eq_one (v : ℕ) (h : 7 ≤ v) : maxedFlag v = 1 := by
  unfold maxedFlag MAX_STAT_POINTS
  rw [if_pos]
  omega

theorem countMaxedStats_explicit (p : StatPoints) :
    countMaxedStats p =
      maxedFlag p.maxHealth + maxedFlag p.healthRegen + maxedFlag p.bodyDamage +
      maxedFlag p.bulletSpeed + maxedFlag p.bulletPenetration +
      maxedFlag p.bulletDamage + maxedFlag p.reload + maxedFlag p.movementSpeed := by
  simp only [countMaxedStats, statValues, List.countP_cons, List.countP_nil,
    decide_eq_true_eq, maxedFlag]
  split_ifs <;> omega

theorem sumStatPoints_setStat_succ (p : StatPoints) (k : StatKey) :
    sumStatPoints (setStat p k (getStat p k + 1)) = sumStatPoints p + 1 := by
  cases k <;> simp [sumStatPoints, statValues, setStat, getStat] <;> omega

theorem countMaxedStats_setStat_le (p : StatPoints) (k : StatKey)
    (h : getStat p k ≤ 5) :
    countMaxedStats (setStat p k (getStat p k + 1)) = countMaxedStats p := by
  cases k with
  | maxHealth =>
    simp only [setStat, getStat, countMaxedStats_explicit] at *
    rw [maxedFlag_eq_zero (p.maxHealth + 1) (by omega),
      maxedFlag_eq_zero p.maxHealth (by omega)]
  | healthRegen =>
    simp only [setStat, getStat, countMaxedStats_explicit] at *
    rw [maxedFlag_eq_zero (p.healthRegen + 1) (by omega),
      maxedFlag_eq_zero p.healthRegen (by omega)]
  | bodyDamage =>
    simp only [setStat, getStat, countMaxedStats_explicit] at *
    rw [maxedFlag_eq_zero (p.bodyDamage + 1) (by omega),
      maxedFlag_eq_zero p.bodyDamage (by omega)]
  | bulletSpeed =>
    simp only [setStat, getStat, countMaxedStats_explicit] at *
    rw [maxedFlag_eq_zero (p.bulletSpeed + 1) (by omega),
      maxedFlag_eq_zero p.bulletSpeed (by omega)]
  | bulletPenetration =>
    simp only [setStat, getStat, countMaxedStats_explicit] at *
    rw [maxedFlag_eq_zero (p.bulletPenetration + 1) (by omega),
      maxedFlag_eq_zero p.bulletPenetration (by omega)]
  | bulletDamage =>
    simp only [setStat, getStat, countMaxedStats_explicit] at *
    rw [maxedFlag_eq_zero (p.bulletDamage + 1) (by omega),
      maxedFlag_eq_zero p.bulletDamage (by omega)]
  | reload =>
    simp only [setStat, getStat, countMaxedStats_explicit] at *
    rw [maxedFlag_eq_zero (p.reload + 1) (by omega),
      maxedFlag_eq_zero p.reload (by omega)]
  | movementSpeed =>
    simp only [setStat, getStat, countMaxedStats_explicit] at *
    rw [maxedFlag_eq_zero (p.movementSpeed + 1) (by omega),
      maxedFlag_eq_zero p.movementSpeed (by omega)]

theorem countMaxedStats_setStat_six (p : StatPoints) (k : StatKey)
    (h : getStat p k = 6) :
    countMaxedStats (setStat p k (getStat p k + 1)) = countMaxedStats p + 1 := by
  cases k with
  | maxHealth =>
    simp only [setStat, getStat, countMaxedStats_explicit] at *
    rw [maxedFlag_eq_one (p.maxHealth + 1) (by omega),
      maxedFlag_eq_zero p.maxHealth (by omega)]
    omega
  | healthRegen =>
    simp only [setStat, getStat, countMaxedStats_explicit] at *
    rw [maxedFlag_eq_one (p.healthRegen + 1) (by omega),
      maxedFlag_eq_zero p.healthRegen (by omega)]
    omega
  | bodyDamage =>
    simp only [setStat, getStat, countMaxedStats_explicit] at *
    rw [maxedFlag_eq_one (p.bodyDamage + 1) (by omega),
      maxedFlag_eq_zero p.bodyDamage (by omega)]
    omega
  | bulletSpeed =>
    simp only [setStat, getStat, countMaxedStats_explicit] at *
    rw [maxedFlag_eq_one (p.bulletSpeed + 1) (by omega),
      maxedFlag_eq_zero p.bulletSpeed (by omega)]
    omega
  | bulletPenetration =>
    simp only [setStat, getStat, countMaxedStats_explicit] at *
    rw [maxedFlag_eq_one (p.bulletPenetration + 1) (by omega),
      maxedFlag_eq_zero p.bulletPenetration (by omega)]
    omega
  | bulletDamage =>
    simp only [setStat, getStat, countMaxedStats_explicit] at *
    rw [maxedFlag_eq_one (p.bulletDamage + 1) (by omega),
      maxedFlag_eq_zero p.bulletDamage (by omega)]
    omega
  | reload =>
    simp only [setStat, getStat, countMaxedStats_explicit] at *
    rw [maxedFlag_eq_one (p.reload + 1) (by omega),
      maxedFlag_eq_zero p.reload (by omega)]
    omega
  | movementSpeed =>
    simp only [setStat, getStat, countMaxedStats_explicit] at *
    rw [maxedFlag_eq_one (p.movementSpeed + 1) (by omega),
      maxedFlag_eq_zero p.movementSpeed (by omega)]
    try omega

theorem totalSkillPointsForLevel_nonneg (level : ℚ) :
    0 ≤ totalSkillPointsForLevel level := by
  have hf : ∀ m : ℤ, m.fdiv 3 = m / 3 := fun m => Int.fdiv_eq_ediv _ (by norm_num)
  simp only [totalSkillPointsForLevel, MAX_SKILL_POINTS, MAX_LEVEL, hf]
  generalize ⌊level⌋ = n
  split_ifs <;> omega

theorem totalSkillPointsForLevel_mono {l1 l2 : ℚ} (h : l1 ≤ l2) :
    totalSkillPointsForLevel l1 ≤ totalSkillPointsForLevel l2 := by
  have hfl : ⌊l1⌋ ≤ ⌊l2⌋ := Int.floor_le_floor h
  have hf : ∀ m : ℤ, m.fdiv 3 = m / 3 := fun m => Int.fdiv_eq_ediv _ (by norm_num)
  simp only [totalSkillPointsForLevel, MAX_SKILL_POINTS, MAX_LEVEL, hf]
  generalize ⌊l1⌋ = n1 at hfl
  generalize ⌊l2⌋ = n2 at hfl
  split_ifs <;> omega

theorem StatInvariant_mono {l1 l2 : ℚ} (h : l1 ≤ l2) (p : StatPoints)
    (hp : StatInvariant l1 p) : StatInvariant l2 p :=
  ⟨hp.1.trans (totalSkillPointsForLevel_mono h), hp.2.1, hp.2.2⟩

theorem allocateStatPoint_preserves (lvl : ℚ) (k : StatKey) (p : StatPoints)
    (hp : StatInvariant lvl p) : StatInvariant lvl (allocateStatPoint lvl k p) := by
  unfold allocateStatPoint
  dsimp only
  split_ifs with h1 h2 h3
  · exact hp
  · exact hp
  · exact hp
  · have hsum : (sumStatPoints p : ℤ) < totalSkillPointsForLevel lvl := by
      unfold availableSkillPoints at h3
      omega
    have hcur : getStat p k ≤ 6 := by
      unfold MAX_STAT_POINTS at h1; omega
    refine ⟨?_, ?_, ?_⟩
    · rw [sumStatPoints_setStat_succ]
      push_cast
      omega
    · rcases Nat.lt_or_ge (getStat p k) 6 with hlt | hge
      · rw [countMaxedStats_setStat_le p k (by omega)]
        exact hp.2.1
      · have h6 : getStat p k = 6 := by omega
        have hcm : countMaxedStats p ≤ 3 := by
          by_contra hcm
          exact h2 ⟨by simpa [MAX_STAT_POINTS] using h6, by omega⟩
        rw [countMaxedStats_setStat_six p k h6]
        omega
    · intro k'
      rw [getStat_setStat]
      split_ifs with hk
      · unfold MAX_STAT_POINTS
        omega
      · exact hp.2.2 k'

theorem runAllocate_inv : ∀ (reqs : List (ℚ × StatKey)) (p : StatPoints) (lvl : ℚ),
    reqs.Pairwise (fun a b => a.1 ≤ b.1) → (∀ r ∈ reqs, r.1 ≤ lvl) →
    (match reqs with
     | [] => StatInvariant lvl p
     | r :: _ => StatInvariant r.1 p) →
    StatInvariant lvl (runAllocate reqs p)
  | [], p, lvl, _, _, hinv => hinv
  | (l, k) :: rest, p, lvl, hpw, hle, hinv => by
    have hstep : StatInvariant l (allocateStatPoint l k p) :=
      allocateStatPoint_preserves l k p hinv
    have hpw' := (List.pairwise_cons.mp hpw).2
    have hhead := (List.pairwise_cons.mp hpw).1
    have hrec := runAllocate_inv rest (allocateStatPoint l k p) lvl hpw'
      (fun r hr => hle r (List.mem_cons_of_mem _ hr))
    show StatInvariant lvl (runAllocate rest (allocateStatPoint l k p))
    apply hrec
    cases rest with
    | nil =>
      exact StatInvariant_mono (hle (l, k) (List.mem_cons_self _ _)) _ hstep
    | cons r' rest' =>
      exact StatInvariant_mono (hhead r' (List.mem_cons_self _ _)) _ hstep

theorem INITIAL_STATS_inv (lvl : ℚ) : StatInvariant lvl INITIAL_STATS := by
  refine ⟨?_, ?_, ?_⟩
  · have := totalSkillPointsForLevel_nonneg lvl
    simp [sumStatPoints, statValues, INITIAL_STATS]
    omega
  · simp [countMaxedStats_explicit, INITIAL_STATS, maxedFlag, MAX_STAT_POINTS]
  · intro k
    cases k <;> simp [getStat, INITIAL_STATS, MAX_STAT_POINTS]

/-- C5: along every sequence of allocation requests made at nondecreasing
levels, the sum of the 8 slots never exceeds the skill-point total of the
current level and at most 4 slots hold the maximum value 7; a request
whose slot sits at 6 while 4 slots are already maxed is rejected as a
no-op regardless of remaining budget (the maxed-slot check precedes the
budget check), a request with no budget is a no-op, and a request on an
already-maxed slot is a no-op. -/
theorem statAllocation_invariants :
    (∀ (reqs : List (ℚ × StatKey)) (lvl : ℚ),
        reqs.Pairwise (fun a b => a.1 ≤ b.1) → (∀ r ∈ reqs, r.1 ≤ lvl) →
        (sumStatPoints (runAllocate reqs INITIAL_STATS) : ℤ) ≤
            totalSkillPointsForLevel lvl ∧
          countMaxedStats (runAllocate reqs INITIAL_STATS) ≤ 4) ∧
    (∀ (lvl : ℚ) (k : StatKey) (p : StatPoints),
        getStat p k = MAX_STAT_POINTS - 1 → 4 ≤ countMaxedStats p →
        allocateStatPoint lvl k p = p) ∧
    (∀ (lvl : ℚ) (k : StatKey) (p : StatPoints),
        availableSkillPoints lvl p ≤ 0 → allocateStatPoint lvl k p = p) ∧
    (∀ (lvl : ℚ) (k : StatKey) (p : StatPoints),
        MAX_STAT_POINTS ≤ getStat p k → allocateStatPoint lvl k p = p) := by
  refine ⟨?_, ?_, ?_, ?_⟩
  · intro reqs lvl hpw hle
    have hinv : StatInvariant lvl (runAllocate reqs INITIAL_STATS) := by
      apply runAllocate_inv reqs INITIAL_STATS lvl hpw hle
      cases reqs with
      | nil => exact INITIAL_STATS_inv lvl
      | cons r rest => exact INITIAL_STATS_inv r.1
    exact ⟨hinv.1, hinv.2.1⟩
  · intro lvl k p h6 h4
    unfold allocateStatPoint
    dsimp only
    split_ifs with h1 h2 h3
    · rfl
    · rfl
    · rfl
    · exact absurd ⟨h6, h4⟩ h2
  · intro lvl k p hav
    unfold allocateStatPoint
    dsimp only
    split_ifs <;> rfl
  · intro lvl k p h7
    unfold allocateStatPoint
    dsimp only
    rw [if_pos h7]

theorem statAllocation_invariants_witness :
    ([((45 : ℚ), StatKey.maxHealth)].Pairwise
        (fun a b : ℚ × StatKey => a.1 ≤ b.1) ∧
      (∀ r ∈ [((45 : ℚ), StatKey.maxHealth)], r.1 ≤ (45 : ℚ)) ∧
      (sumStatPoints (runAllocate [((45 : ℚ), StatKey.maxHealth)] INITIAL_STATS) : ℤ) ≤
          totalSkillPointsForLevel 45 ∧
        countMaxedStats (runAllocate [((45 : ℚ), StatKey.maxHealth)] INITIAL_STATS) ≤ 4) ∧
    (getStat ⟨7, 7, 7, 7, 6, 0, 0, 0⟩ StatKey.bulletPenetration = MAX_STAT_POINTS - 1 ∧
      4 ≤ countMaxedStats ⟨7, 7, 7, 7, 6, 0, 0, 0⟩ ∧
      allocateStatPoint 45 StatKey.bulletPenetration ⟨7, 7, 7, 7, 6, 0, 0, 0⟩ =
        ⟨7, 7, 7, 7, 6, 0, 0, 0⟩) ∧
    (availableSkillPoints 1 INITIAL_STATS ≤ 0 ∧
      allocateStatPoint 1 StatKey.reload INITIAL_STATS = INITIAL_STATS) := by
  have hav : availableSkillPoints 1 INITIAL_STATS ≤ 0 := by
    unfold availableSkillPoints
    rw [show (1 : ℚ) = ((1 : ℤ) : ℚ) by norm_num, totalSkillPoints_intCast]
    simp [sumStatPoints, statValues, INITIAL_STATS]
  have hpw : [((45 : ℚ), StatKey.maxHealth)].Pairwise
      (fun a b : ℚ × StatKey => a.1 ≤ b.1) := by simp
  have hle : ∀ r ∈ [((45 : ℚ), StatKey.maxHealth)], r.1 ≤ (45 : ℚ) := by
    intro r hr
    simp at hr
    rw [hr]
  refine ⟨⟨hpw, hle, statAllocation_invariants.1 _ 45 hpw hle⟩, ⟨?_, ?_, ?_⟩, hav, ?_⟩
  · decide
  · decide
  · exact statAllocation_invariants.2.1 45 StatKey.bulletPenetration _ (by decide)
      (by decide)
  · exact statAllocation_invariants.2.2.1 1 StatKey.reload INITIAL_STATS hav

theorem tankVelClamped_sq_le (len : ℚ → ℚ → ℚ) (dt ix iy : ℚ) (vel : V2)
    (h0 : 0 ≤ len (tankVelPreClamp len dt ix iy vel).x
        (tankVelPreClamp len dt ix iy vel).y)
    (hsq : (len (tankVelPreClamp len dt ix iy vel).x
          (tankVelPreClamp len dt ix iy vel).y) ^ 2 =
        (tankVelPreClamp len dt ix iy vel).x ^ 2 +
          (tankVelPreClamp len dt ix iy vel).y ^ 2) :
    (tankVelClamped len dt ix iy vel).x ^ 2 +
      (tankVelClamped len dt ix iy vel).y ^ 2 ≤ TANK_SPEED ^ 2 := by
  unfold tankVelClamped
  dsimp only
  set v1 := tankVelPreClamp len dt ix iy vel
  set sp := len v1.x v1.y with hsp
  split_ifs with h
  · have hpos : (0 : ℚ) < sp := lt_trans (by norm_num [TANK_SPEED]) h
    have hne : sp ≠ 0 := ne_of_gt hpos
    have : (v1.x * (TANK_SPEED / sp)) ^ 2 + (v1.y * (TANK_SPEED / sp)) ^ 2 =
        (v1.x ^ 2 + v1.y ^ 2) * (TANK_SPEED / sp) ^ 2 := by ring
    rw [this, ← hsq, div_pow]
    rw [show sp ^ 2 * (TANK_SPEED ^ 2 / sp ^ 2) = TANK_SPEED ^ 2 * (sp ^ 2 / sp ^ 2) by
      ring]
    rw [div_self (pow_ne_zero 2 hne), mul_one]
  · push_neg at h
    have := hsq.symm
    nlinarith [h0, h]

/-- C10: after integrateTank the squared speed is at most TANK_SPEED
squared (the source's clamp, assuming the Math.hypot contract at the
measured velocity), the position lies in the map rectangle expanded by
the margin on every side, and whenever clamping changed a position
coordinate the velocity component of that axis is zero. -/
theorem integrateTank_speed_and_bounds (len : ℚ → ℚ → ℚ) (dt ix iy : ℚ)
    (vel pos : V2) (mapW mapH margin : ℚ)
    (h0 : 0 ≤ len (tankVelPreClamp len dt ix iy vel).x
        (tankVelPreClamp len dt ix iy vel).y)
    (hsq : (len (tankVelPreClamp len dt ix iy vel).x
          (tankVelPreClamp len dt ix iy vel).y) ^ 2 =
        (tankVelPreClamp len dt ix iy vel).x ^ 2 +
          (tankVelPreClamp len dt ix iy vel).y ^ 2)
    (hmargin : 0 ≤ margin) (hw : 0 ≤ mapW) (hh : 0 ≤ mapH) :
    (integrateTank len dt ix iy vel pos mapW mapH margin).1.x ^ 2 +
        (integrateTank len dt ix iy vel pos mapW mapH margin).1.y ^ 2 ≤
      TANK_SPEED ^ 2 ∧
    -margin ≤ (integrateTank len dt ix iy vel pos mapW mapH margin).2.x ∧
    (integrateTank len dt ix iy vel pos mapW mapH margin).2.x ≤ mapW + margin ∧
    -margin ≤ (integrateTank len dt ix iy vel pos mapW mapH margin).2.y ∧
    (integrateTank len dt ix iy vel pos mapW mapH margin).2.y ≤ mapH + margin ∧
    ((integrateTank len dt ix iy vel pos mapW mapH margin).2.x ≠
        pos.x + (tankVelClamped len dt ix iy vel).x * dt →
      (integrateTank len dt ix iy vel pos mapW mapH margin).1.x = 0) ∧
    ((integrateTank len dt ix iy vel pos mapW mapH margin).2.y ≠
        pos.y + (tankVelClamped len dt ix iy vel).y * dt →
      (integrateTank len dt ix iy vel pos mapW mapH margin).1.y = 0) := by
  have hv2 := tankVelClamped_sq_le len dt ix iy vel h0 hsq
  unfold integrateTank
  dsimp only
  set v2 := tankVelClamped len dt ix iy vel
  refine ⟨?_, ?_, ?_, ?_, ?_, ?_, ?_⟩
  · split_ifs <;> nlinarith [sq_nonneg v2.x, sq_nonneg v2.y]
  · exact le_max_left _ _
  · apply max_le
    · linarith
    · exact min_le_left _ _
  · exact le_max_left _ _
  · apply max_le
    · linarith
    · exact min_le_left _ _
  · intro hne
    rw [if_pos hne]
  · intro hne
    rw [if_pos hne]

theorem integrateTank_speed_and_bounds_witness :
    (0 : ℚ) ≤
        (fun x y => if x = 300 ∧ y = 400 then (500 : ℚ) else 5)
          (tankVelPreClamp (fun x y => if x = 300 ∧ y = 400 then (500 : ℚ) else 5)
            0 3 4 ⟨300, 400⟩).x
          (tankVelPreClamp (fun x y => if x = 300 ∧ y = 400 then (500 : ℚ) else 5)
            0 3 4 ⟨300, 400⟩).y ∧
    (integrateTank (fun x y => if x = 300 ∧ y = 400 then (500 : ℚ) else 5)
          0 3 4 ⟨300, 400⟩ ⟨0, 0⟩ 1500 1500 100).1.x ^ 2 +
        (integrateTank (fun x y => if x = 300 ∧ y = 400 then (500 : ℚ) else 5)
          0 3 4 ⟨300, 400⟩ ⟨0, 0⟩ 1500 1500 100).1.y ^ 2 ≤ TANK_SPEED ^ 2 ∧
    -(100 : ℚ) ≤ (integrateTank (fun x y => if x = 300 ∧ y = 400 then (500 : ℚ) else 5)
          0 3 4 ⟨300, 400⟩ ⟨0, 0⟩ 1500 1500 100).2.x := by
  have hpre : tankVelPreClamp (fun x y => if x = 300 ∧ y = 400 then (500 : ℚ) else 5)
      0 3 4 ⟨300, 400⟩ = ⟨300, 400⟩ := by
    unfold tankVelPreClamp normalizeMoveInput TANK_ACCEL TANK_FRICTION
    norm_num
  have h := integrateTank_speed_and_bounds
    (fun x y => if x = 300 ∧ y = 400 then (500 : ℚ) else 5) 0 3 4 ⟨300, 400⟩ ⟨0, 0⟩
    1500 1500 100 (by rw [hpre]; norm_num) (by rw [hpre]; norm_num)
    (by norm_num) (by norm_num) (by norm_num)
  exact ⟨by rw [hpre]; norm_num, h.1, h.2.1⟩

/-! ## Health clamp invariants (C1) -/

theorem computeBulletHitDamage_nonneg (d h t : ℚ) (hd : 0 ≤ d) (hh : 0 ≤ h) :
    0 ≤ computeBulletHitDamage d h t := by
  unfold computeBulletHitDamage
  split_ifs with hlt
  · have hden : (0 : ℚ) < max (1/1000000) t :=
      lt_of_lt_of_le (by norm_num) (le_max_left _ _)
    exact mul_nonneg hd (div_nonneg hh hden.le)
  · exact hd

theorem derived_maxHp_nonneg (lvl : ℚ) (pts : StatPoints) :
    0 ≤ (computeDerivedStats lvl pts).maxHp := by
  unfold computeDerivedStats baseMaxHpForLevel BASE_HP HP_PER_LEVEL HP_PER_POINT
  dsimp only
  have h1 : (0 : ℚ) ≤ max 0 (lvl - 1) := le_max_left _ _
  have h2 : (0 : ℚ) ≤ (pts.maxHealth : ℚ) := Nat.cast_nonneg _
  linarith

theorem derived_regen_nonneg (lvl : ℚ) (pts : StatPoints) :
    0 ≤ (computeDerivedStats lvl pts).regenPerSecond := by
  have hmax := derived_maxHp_nonneg lvl pts
  unfold computeDerivedStats at hmax ⊢
  unfold baseMaxHpForLevel BASE_HP HP_PER_LEVEL HP_PER_POINT REGEN_BASE_FACTOR
    REGEN_PER_POINT at hmax ⊢
  dsimp only at hmax ⊢
  have h2 : (0 : ℚ) ≤ (pts.healthRegen : ℚ) := Nat.cast_nonneg _
  have : (0 : ℚ) ≤ 3/100 + 12/100 * (pts.healthRegen : ℚ) := by linarith
  positivity

theorem derived_bodyDamageShape_nonneg (lvl : ℚ) (pts : StatPoints) :
    0 ≤ (computeDerivedStats lvl pts).bodyDamageShape := by
  unfold computeDerivedStats BODY_DAMAGE_BASE BODY_DAMAGE_MULT_SHAPE
  dsimp only
  have h2 : (0 : ℚ) ≤ (pts.bodyDamage : ℚ) := Nat.cast_nonneg _
  linarith

theorem impactMultiplierFromSpeed_nonneg (speed : ℚ) :
    0 ≤ impactMultiplierFromSpeed speed := by
  unfold impactMultiplierFromSpeed IMPACT_SPEED_BONUS
  have h1 : (0 : ℚ) ≤ max 0 (min 1 (speed / BASE_TANK_SPEED)) := le_max_left _ _
  linarith

/-- C1: every health mutation of the simulation maps the interval
[0, maxHp] into itself: tank damage and heal clamp on both sides by
construction; a bullet hit on an entity clamps at 0 and cannot raise hp
(the dealt damage is nonnegative when bullet damage and budget are);
body-contact damage to tank and entity clamps at 0 and only subtracts;
the regeneration step clamps at the derived maximum and only adds. -/
theorem health_clamp_invariants :
    (∀ hp dmg maxHp : ℚ, 0 ≤ maxHp →
      0 ≤ applyTankDamage hp dmg maxHp ∧ applyTankDamage hp dmg maxHp ≤ maxHp) ∧
    (∀ hp heal maxHp : ℚ, 0 ≤ maxHp →
      0 ≤ applyTankHeal hp heal maxHp ∧ applyTankHeal hp heal maxHp ≤ maxHp) ∧
    (∀ (t : Trig) (b : Bullet) (e : GameEntity), 0 ≤ b.damage → 0 ≤ b.hp →
      0 ≤ e.hp → e.hp ≤ e.maxHp →
      ((applyBulletHit t b e).2.1.maxHp = e.maxHp ∧
        0 ≤ (applyBulletHit t b e).2.1.hp ∧
        (applyBulletHit t b e).2.1.hp ≤ e.maxHp)) ∧
    (∀ hp dt maxHp : ℚ, 0 ≤ hp → hp ≤ maxHp → 0 ≤ dt →
      0 ≤ playerContactTankHp hp dt ∧ playerContactTankHp hp dt ≤ maxHp) ∧
    (∀ (lvl : ℚ) (pts : StatPoints) (ehp speed dt emax : ℚ),
      0 ≤ ehp → ehp ≤ emax → 0 ≤ dt →
      0 ≤ playerContactEntityHp ehp (computeDerivedStats lvl pts).bodyDamageShape
          speed dt ∧
        playerContactEntityHp ehp (computeDerivedStats lvl pts).bodyDamageShape
          speed dt ≤ emax) ∧
    (∀ (lvl : ℚ) (pts : StatPoints) (hp dt : ℚ), 0 ≤ hp → 0 ≤ dt →
      0 ≤ regenTankHp (computeDerivedStats lvl pts).maxHp hp
          (computeDerivedStats lvl pts).regenPerSecond dt ∧
        regenTankHp (computeDerivedStats lvl pts).maxHp hp
          (computeDerivedStats lvl pts).regenPerSecond dt ≤
          (computeDerivedStats lvl pts).maxHp) := by
  refine ⟨?_, ?_, ?_, ?_, ?_, ?_⟩
  · intro hp dmg maxHp hmax
    unfold applyTankDamage
    exact ⟨le_max_left _ _, max_le hmax (min_le_left _ _)⟩
  · intro hp heal maxHp hmax
    unfold applyTankHeal
    exact ⟨le_max_left _ _, max_le hmax (min_le_left _ _)⟩
  · intro t b e hbd hbh hehp hmax
    have hd := computeBulletHitDamage_nonneg b.damage b.hp
      (SHAPE_BASE_DAMAGE e.kind) hbd hbh
    unfold applyBulletHit
    dsimp only
    refine ⟨rfl, le_max_left _ _, ?_⟩
    have h0 : (0 : ℚ) ≤ e.maxHp := le_trans hehp hmax
    apply max_le h0
    linarith
  · intro hp dt maxHp h0 hle hdt
    unfold playerContactTankHp PLAYER_CONTACT_DPS
    constructor
    · exact le_max_left _ _
    · apply max_le (le_trans h0 hle)
      nlinarith
  · intro lvl pts ehp speed dt emax h0 hle hdt
    unfold playerContactEntityHp
    constructor
    · exact le_max_left _ _
    · apply max_le (le_trans h0 hle)
      have hbs := derived_bodyDamageShape_nonneg lvl pts
      have him := impactMultiplierFromSpeed_nonneg speed
      nlinarith [mul_nonneg (mul_nonneg hbs him) hdt]
  · intro lvl pts hp dt h0 hdt
    unfold regenTankHp
    have hmax := derived_maxHp_nonneg lvl pts
    have hre := derived_regen_nonneg lvl pts
    constructor
    · apply le_min hmax
      nlinarith
    · exact min_le_left _ _

theorem health_clamp_invariants_witness :
    (0 : ℚ) ≤ 50 ∧ 0 ≤ applyTankDamage 30 100 50 ∧ applyTankDamage 30 100 50 ≤ 50 ∧
    0 ≤ applyTankHeal 49 100 50 ∧ applyTankHeal 49 100 50 ≤ 50 ∧
    0 ≤ playerContactTankHp 1 2 ∧ playerContactTankHp 1 2 ≤ 50 ∧
    0 ≤ regenTankHp (computeDerivedStats 1 INITIAL_STATS).maxHp 49
        (computeDerivedStats 1 INITIAL_STATS).regenPerSecond 1 ∧
      regenTankHp (computeDerivedStats 1 INITIAL_STATS).maxHp 49
        (computeDerivedStats 1 INITIAL_STATS).regenPerSecond 1 ≤
        (computeDerivedStats 1 INITIAL_STATS).maxHp := by
  have h1 := health_clamp_invariants.1 30 100 50 (by norm_num)
  have h2 := health_clamp_invariants.2.1 49 100 50 (by norm_num)
  have h4 := health_clamp_invariants.2.2.2.1 1 2 50 (by norm_num) (by norm_num)
    (by norm_num)
  have h6 := health_clamp_invariants.2.2.2.2.2 1 INITIAL_STATS 49 1 (by norm_num)
    (by norm_num)
  exact ⟨by norm_num, h1.1, h1.2, h2.1, h2.2, h4.1, h4.2, h6.1, h6.2⟩

/-! ## Bullet hit scenarios (C4) -/

/-- C4: a square entity at 10/10 hp struck by a 7-damage bullet whose
penetration budget covers the square base resistance ends at hp 3 with
the hit flash armed and is not marked killed (so the removal filter keeps
it); a bullet with budget 2 striking a triangle (base resistance 4) deals
exactly half its damage, has its budget reduced to -2 and its lifetime
zeroed, and the hit loop processes at most this one hit for the bullet
(the cull pass then drops any bullet with lifetime at or below 0). -/
theorem updateBullets_hit_scenarios :
    (∀ (t : Trig) (b : Bullet) (e : GameEntity),
      e.kind = .square → e.hp = 10 → e.maxHp = 10 → b.damage = 7 →
      SHAPE_BASE_DAMAGE EntityKind.square ≤ b.hp →
      ((applyBulletHit t b e).2.1.hp = 3 ∧
        (applyBulletHit t b e).2.1.hitT = HIT_FLASH_DURATION ∧
        (applyBulletHit t b e).2.2 = false)) ∧
    (∀ (t : Trig) (b : Bullet) (e : GameEntity),
      e.kind = .triangle → b.hp = 2 →
      (computeBulletHitDamage b.damage b.hp (SHAPE_BASE_DAMAGE e.kind) =
          b.damage * (1/2) ∧
        (applyBulletHit t b e).1.hp = -2 ∧
        (applyBulletHit t b e).1.life = 0)) ∧
    (∀ (camera : CameraInfo) (bs : List Bullet) (b : Bullet),
      b.life = 0 →
      b ∉ bs.filter (fun bb => !decide (bb.life ≤ 0) && bulletInView camera bb.pos)) := by
  refine ⟨?_, ?_, ?_⟩
  · intro t b e hk hhp hmax hdmg hbud
    have hfull : computeBulletHitDamage b.damage b.hp (SHAPE_BASE_DAMAGE e.kind) =
        b.damage := by
      unfold computeBulletHitDamage
      rw [if_neg]
      rw [hk]
      exact not_lt.mpr hbud
    unfold applyBulletHit
    dsimp only
    rw [hfull, hhp, hdmg]
    norm_num [decide_eq_false_iff_not]
  · intro t b e hk hbud
    have hhalf : computeBulletHitDamage b.damage b.hp (SHAPE_BASE_DAMAGE e.kind) =
        b.damage * (1/2) := by
      unfold computeBulletHitDamage
      rw [hk, hbud]
      rw [if_pos (by norm_num [SHAPE_BASE_DAMAGE])]
      norm_num [SHAPE_BASE_DAMAGE]
    refine ⟨hhalf, ?_, ?_⟩
    · unfold applyBulletHit
      dsimp only
      rw [hk, hbud]
      norm_num [SHAPE_BASE_DAMAGE]
    · unfold applyBulletHit
      dsimp only
      rw [hk, hbud]
      rw [if_pos (by norm_num [SHAPE_BASE_DAMAGE])]
  · intro camera bs b hlife hmem
    rw [List.mem_filter] at hmem
    have := hmem.2
    rw [Bool.and_eq_true, Bool.not_eq_true', decide_eq_false_iff_not] at this
    exact this.1 (le_of_eq hlife)

theorem updateBullets_hit_scenarios_witness :
    (scenarioSquare.kind = EntityKind.square ∧ scenarioSquare.hp = 10 ∧
      scenarioSquare.maxHp = 10 ∧ scenarioBullet.damage = 7 ∧
      SHAPE_BASE_DAMAGE EntityKind.square ≤ scenarioBullet.hp ∧
      (applyBulletHit trigZero scenarioBullet scenarioSquare).2.1.hp = 3 ∧
      (applyBulletHit trigZero scenarioBullet scenarioSquare).2.1.hitT =
        HIT_FLASH_DURATION ∧
      (applyBulletHit trigZero scenarioBullet scenarioSquare).2.2 = false) ∧
    (scenarioTriangle.kind = EntityKind.triangle ∧ scenarioBullet.hp = 2 ∧
      computeBulletHitDamage scenarioBullet.damage scenarioBullet.hp
          (SHAPE_BASE_DAMAGE scenarioTriangle.kind) =
        scenarioBullet.damage * (1/2) ∧
      (applyBulletHit trigZero scenarioBullet scenarioTriangle).1.hp = -2 ∧
      (applyBulletHit trigZero scenarioBullet scenarioTriangle).1.life = 0) ∧
    ((⟨9, ⟨0, 0⟩, ⟨0, 0⟩, 11, 0, 2, 7⟩ : Bullet).life = 0 ∧
      (⟨9, ⟨0, 0⟩, ⟨0, 0⟩, 11, 0, 2, 7⟩ : Bullet) ∉
        [(⟨9, ⟨0, 0⟩, ⟨0, 0⟩, 11, 0, 2, 7⟩ : Bullet)].filter
          (fun bb => !decide (bb.life ≤ 0) &&
            bulletInView ⟨-100, -100, 200, 200⟩ bb.pos)) := by
  have hA := updateBullets_hit_scenarios.1 trigZero scenarioBullet scenarioSquare
    (by rfl) (by rfl) (by rfl) (by rfl)
    (by norm_num [SHAPE_BASE_DAMAGE, scenarioBullet])
  have hB := updateBullets_hit_scenarios.2.1 trigZero scenarioBullet
    scenarioTriangle (by rfl) (by rfl)
  have hC := updateBullets_hit_scenarios.2.2 ⟨-100, -100, 200, 200⟩
    [(⟨9, ⟨0, 0⟩, ⟨0, 0⟩, 11, 0, 2, 7⟩ : Bullet)]
    (⟨9, ⟨0, 0⟩, ⟨0, 0⟩, 11, 0, 2, 7⟩ : Bullet) (by rfl)
  refine ⟨⟨rfl, rfl, rfl, rfl, by norm_num [SHAPE_BASE_DAMAGE, scenarioBullet],
    hA.1, hA.2.1, hA.2.2⟩, ⟨rfl, rfl, hB.1, hB.2.1, hB.2.2⟩, rfl, hC⟩

/-- Scenario A runs end to end through updateBullets on a concrete world:
the struck square survives at hp 3 with its flash armed, while the bullet
(budget exactly the square resistance) exhausts its budget, has its
lifetime zeroed and is culled in the same call. -/
theorem updateBullets_scenarioA_end_to_end :
    updateBullets trigZero [scenarioBullet] [scenarioSquare] 0
        ⟨-100, -100, 200, 200⟩ 0 2 noSpawn noSpawn =
      ([], [{ scenarioSquare with hp := 3, hitT := HIT_FLASH_DURATION }], 0) := by
  have hint : integrateBullet 0 scenarioBullet = scenarioBullet := by
    simp [integrateBullet, scenarioBullet]
  have hhits : bulletHitsEntity trigZero scenarioBullet scenarioSquare = true := by
    norm_num [bulletHitsEntity, scenarioBullet, scenarioSquare, trigZero, distSq,
      computeEntityCollisionRadius, ENTITY_COLLISION_INSET, SQUARE_SIZE]
  have happly : applyBulletHit trigZero scenarioBullet scenarioSquare =
      (⟨5, ⟨0, 0⟩, ⟨0, 0⟩, 11, 0, 0, 7⟩,
        { scenarioSquare with hp := 3, hitT := HIT_FLASH_DURATION }, false) := by
    norm_num [applyBulletHit, scenarioBullet, scenarioSquare, trigZero,
      computeBulletHitDamage, SHAPE_BASE_DAMAGE, ENTITY_BOUNCE,
      HIT_FLASH_DURATION, decide_eq_false_iff_not]
  have hcands : (scanCells (cellOf 43 scenarioBullet.pos)).flatMap
      (fun c => [scenarioSquare].filter (fun e => decide (cellOf 43 e.pos = c))) =
      [scenarioSquare] := by
    simp [scanCells, cellOf, scenarioBullet, scenarioSquare, Prod.mk.injEq]
  have hproc : processBullet trigZero 43 ⟨[scenarioSquare], [], 0, 0⟩
      scenarioBullet =
      (⟨[{ scenarioSquare with hp := 3, hitT := HIT_FLASH_DURATION }], [], 0, 0⟩,
        ⟨5, ⟨0, 0⟩, ⟨0, 0⟩, 11, 0, 0, 7⟩) := by
    unfold processBullet
    rw [if_neg (by norm_num [scenarioBullet])]
    dsimp only
    rw [hcands]
    rw [show List.find?
        (fun e => !([] : List ℕ).contains e.id && bulletHitsEntity trigZero
          scenarioBullet e) [scenarioSquare] = some scenarioSquare by
      simp [List.find?, hhits]]
    dsimp only
    rw [happly]
    simp [scenarioSquare]
  have hpass : hitPass trigZero 43 [scenarioBullet] ⟨[scenarioSquare], [], 0, 0⟩ =
      (⟨[{ scenarioSquare with hp := 3, hitT := HIT_FLASH_DURATION }], [], 0, 0⟩,
        [⟨5, ⟨0, 0⟩, ⟨0, 0⟩, 11, 0, 0, 7⟩]) := by
    unfold hitPass
    rw [List.foldl_cons]
    rw [show processBullet trigZero 43 ⟨[scenarioSquare], [], 0, 0⟩ scenarioBullet =
      (⟨[{ scenarioSquare with hp := 3, hitT := HIT_FLASH_DURATION }], [], 0, 0⟩,
        ⟨5, ⟨0, 0⟩, ⟨0, 0⟩, 11, 0, 0, 7⟩) from hproc]
    simp
  unfold updateBullets
  dsimp only
  rw [show [scenarioBullet].map (integrateBullet 0) = [scenarioBullet] by
    simp [hint]]
  unfold updateBulletsCore
  rw [if_pos (by simp [scenarioBullet])]
  dsimp only
  rw [show max SQUARE_SIZE (max TRIANGLE_SIZE
      (([scenarioBullet].foldl (fun m b => if m < b.radius then b.radius else m)
        BULLET_RADIUS) * 2)) = 43 by
    norm_num [scenarioBullet, SQUARE_SIZE, TRIANGLE_SIZE, BULLET_RADIUS]]
  rw [hpass]
  simp [bulletInView]

/-! ## Broad-phase coverage of the spatial hash (C8)

The source guarantees the 3x3 cell scan of updateBullets finds every
narrow-phase hit only when every bullet reach (bullet radius plus the
kind-specific collision extent) fits in one cell. The geometric lemmas
below bound the distance between a bullet and the entity it hits; the
counterexample exhibits a bullet radius for which the guarantee fails. -/

theorem jensen3 (u v dax day dbx dby dcx dcy : ℚ) (hu : 0 ≤ u) (hv : 0 ≤ v)
    (huv : u + v ≤ 1) (R2 : ℚ)
    (ha : dax ^ 2 + day ^ 2 ≤ R2) (hb : dbx ^ 2 + dby ^ 2 ≤ R2)
    (hc : dcx ^ 2 + dcy ^ 2 ≤ R2) :
    ((1 - u - v) * dax + u * dcx + v * dbx) ^ 2 +
      ((1 - u - v) * day + u * dcy + v * dby) ^ 2 ≤ R2 := by
  nlinarith [mul_nonneg (mul_nonneg hu hv) (sq_nonneg (dcx - dbx)),
    mul_nonneg (mul_nonneg hu hv) (sq_nonneg (dcy - dby)),
    mul_nonneg (mul_nonneg hu (by linarith : (0:ℚ) ≤ 1 - u - v))
      (sq_nonneg (dcx - dax)),
    mul_nonneg (mul_nonneg hu (by linarith : (0:ℚ) ≤ 1 - u - v))
      (sq_nonneg (dcy - day)),
    mul_nonneg (mul_nonneg hv (by linarith : (0:ℚ) ≤ 1 - u - v))
      (sq_nonneg (dbx - dax)),
    mul_nonneg (mul_nonneg hv (by linarith : (0:ℚ) ≤ 1 - u - v))
      (sq_nonneg (dby - day)),
    mul_le_mul_of_nonneg_left ha (by linarith : (0:ℚ) ≤ 1 - u - v),
    mul_le_mul_of_nonneg_left hb hv,
    mul_le_mul_of_nonneg_left hc hu]

theorem sq_add_le_of_bounds (ux uy vx vy r R : ℚ) (hr : 0 ≤ r) (hR : 0 ≤ R)
    (h1 : ux ^ 2 + uy ^ 2 ≤ r ^ 2) (h2 : vx ^ 2 + vy ^ 2 ≤ R ^ 2) :
    (ux + vx) ^ 2 + (uy + vy) ^ 2 ≤ (r + R) ^ 2 := by
  have hCS : (ux * vx + uy * vy) ^ 2 ≤ (ux ^ 2 + uy ^ 2) * (vx ^ 2 + vy ^ 2) := by
    nlinarith [sq_nonneg (ux * vy - uy * vx)]
  have hprod : (ux ^ 2 + uy ^ 2) * (vx ^ 2 + vy ^ 2) ≤ r ^ 2 * R ^ 2 := by
    nlinarith [sq_nonneg ux, sq_nonneg uy, sq_nonneg vx, sq_nonneg vy]
  have hdot : ux * vx + uy * vy ≤ r * R := by
    nlinarith [mul_nonneg hr hR]
  nlinarith

theorem distSq_triangle_ineq (p q x : V2) (r R : ℚ) (hr : 0 ≤ r) (hR : 0 ≤ R)
    (h1 : distSq p q ≤ r ^ 2) (h2 : distSq q x ≤ R ^ 2) :
    distSq p x ≤ (r + R) ^ 2 := by
  unfold distSq at h1 h2 ⊢
  rw [show p.x - x.x = (p.x - q.x) + (q.x - x.x) by ring,
    show p.y - x.y = (p.y - q.y) + (q.y - x.y) by ring]
  exact sq_add_le_of_bounds _ _ _ _ r R hr hR h1 h2

theorem distSq_closestPointOnSegment_le (p a b x : V2) (R2 : ℚ)
    (ha : distSq a x ≤ R2) (hb : distSq b x ≤ R2) :
    distSq (closestPointOnSegment p a b) x ≤ R2 := by
  unfold closestPointOnSegment
  dsimp only
  split_ifs with hab
  · set s := ((p.x - a.x) * (b.x - a.x) + (p.y - a.y) * (b.y - a.y)) /
      ((b.x - a.x) * (b.x - a.x) + (b.y - a.y) * (b.y - a.y))
    have ht0 : (0:ℚ) ≤ max 0 (min 1 s) := le_max_left _ _
    have ht1 : max 0 (min 1 s) ≤ 1 := max_le zero_le_one (min_le_left _ _)
    set t := max 0 (min 1 s)
    unfold distSq at ha hb ⊢
    dsimp only
    rw [show a.x + (b.x - a.x) * t - x.x =
        (1 - t) * (a.x - x.x) + t * (b.x - x.x) by ring,
      show a.y + (b.y - a.y) * t - x.y =
        (1 - t) * (a.y - x.y) + t * (b.y - x.y) by ring]
    nlinarith [mul_nonneg (mul_nonneg ht0 (by linarith : (0:ℚ) ≤ 1 - t))
        (sq_nonneg ((a.x - x.x) - (b.x - x.x))),
      mul_nonneg (mul_nonneg ht0 (by linarith : (0:ℚ) ≤ 1 - t))
        (sq_nonneg ((a.y - x.y) - (b.y - x.y))),
      mul_le_mul_of_nonneg_left ha (by linarith : (0:ℚ) ≤ 1 - t),
      mul_le_mul_of_nonneg_left hb ht0]
  · unfold distSq at ha ⊢
    dsimp only
    nlinarith [ha]

theorem baryPoint_in_hull (d a0 b0 ax ay bx b2y cx cy px py : ℚ)
    (hd : d = ((cx - ax) * (cx - ax) + (cy - ay) * (cy - ay)) *
        ((bx - ax) * (bx - ax) + (b2y - ay) * (b2y - ay)) -
        ((cx - ax) * (bx - ax) + (cy - ay) * (b2y - ay)) *
        ((cx - ax) * (bx - ax) + (cy - ay) * (b2y - ay)))
    (ha0 : a0 = ((bx - ax) * (bx - ax) + (b2y - ay) * (b2y - ay)) *
        ((cx - ax) * (px - ax) + (cy - ay) * (py - ay)) -
        ((cx - ax) * (bx - ax) + (cy - ay) * (b2y - ay)) *
        ((bx - ax) * (px - ax) + (b2y - ay) * (py - ay)))
    (hb0 : b0 = ((cx - ax) * (cx - ax) + (cy - ay) * (cy - ay)) *
        ((bx - ax) * (px - ax) + (b2y - ay) * (py - ay)) -
        ((cx - ax) * (bx - ax) + (cy - ay) * (b2y - ay)) *
        ((cx - ax) * (px - ax) + (cy - ay) * (py - ay)))
    (hden : 1/100000000 ≤ d)
    (hu : 0 ≤ a0 * (1 / max (1/100000000) d))
    (hv : 0 ≤ b0 * (1 / max (1/100000000) d))
    (huv : a0 * (1 / max (1/100000000) d) + b0 * (1 / max (1/100000000) d) ≤ 1) :
    ∃ u v : ℚ, 0 ≤ u ∧ 0 ≤ v ∧ u + v ≤ 1 ∧
      px = ax + u * (cx - ax) + v * (bx - ax) ∧
      py = ay + u * (cy - ay) + v * (b2y - ay) := by
  have hd0 : (0:ℚ) < d := lt_of_lt_of_le (by norm_num) hden
  have hmax : max ((1:ℚ)/100000000) d = d := max_eq_right hden
  rw [hmax] at hu hv huv
  have hidx : d * (px - ax) = a0 * (cx - ax) + b0 * (bx - ax) := by
    rw [hd, ha0, hb0]; ring
  have hidy : d * (py - ay) = a0 * (cy - ay) + b0 * (b2y - ay) := by
    rw [hd, ha0, hb0]; ring
  refine ⟨a0 * (1 / d), b0 * (1 / d), hu, hv, huv, ?_, ?_⟩
  · field_simp
    linear_combination hidx
  · field_simp
    linear_combination hidy

theorem distSq_le_of_pointInTriangle (p a b c x : V2) (R2 : ℚ)
    (hden : 1/100000000 ≤ triangleBaryDen a b c)
    (hp : pointInTriangle p a b c = true)
    (ha : distSq a x ≤ R2) (hb : distSq b x ≤ R2) (hc : distSq c x ≤ R2) :
    distSq p x ≤ R2 := by
  simp only [pointInTriangle, decide_eq_true_eq] at hp
  unfold triangleBaryDen at hden
  dsimp only at hden
  obtain ⟨hu, hv, huv⟩ := hp
  obtain ⟨u, v, hu0, hv0, huv1, hpx, hpy⟩ :=
    baryPoint_in_hull _ _ _ a.x a.y b.x b.y c.x c.y p.x p.y rfl rfl rfl
      hden hu hv huv
  unfold distSq at ha hb hc ⊢
  rw [show p.x - x.x = (1 - u - v) * (a.x - x.x) + u * (c.x - x.x) +
      v * (b.x - x.x) by rw [hpx]; ring,
    show p.y - x.y = (1 - u - v) * (a.y - x.y) + u * (c.y - x.y) +
      v * (b.y - x.y) by rw [hpy]; ring]
  exact jensen3 u v (a.x - x.x) (a.y - x.y) (b.x - x.x) (b.y - x.y)
    (c.x - x.x) (c.y - x.y) hu0 hv0 huv1 R2 ha hb hc

theorem distSq_closestPointOnTriangle_le (p a b c x : V2) (R2 : ℚ)
    (hden : 1/100000000 ≤ triangleBaryDen a b c)
    (ha : distSq a x ≤ R2) (hb : distSq b x ≤ R2) (hc : distSq c x ≤ R2) :
    (pointInTriangle p a b c = true → distSq p x ≤ R2) ∧
    distSq (closestPointOnTriangle p a b c) x ≤ R2 := by
  constructor
  · intro hp
    exact distSq_le_of_pointInTriangle p a b c x R2 hden hp ha hb hc
  · unfold closestPointOnTriangle
    dsimp only
    split_ifs with h1 h2 h3
    · exact distSq_le_of_pointInTriangle p a b c x R2 hden h1 ha hb hc
    · exact distSq_closestPointOnSegment_le p a b x R2 ha hb
    · exact distSq_closestPointOnSegment_le p b c x R2 hb hc
    · exact distSq_closestPointOnSegment_le p c a x R2 hc ha

theorem abs_le_of_sq_add_sq_le (dx dy m : ℚ) (hm : 0 ≤ m)
    (h : dx ^ 2 + dy ^ 2 ≤ m ^ 2) : |dx| ≤ m ∧ |dy| ≤ m := by
  constructor <;> rw [abs_le] <;> constructor <;>
    nlinarith [sq_nonneg dx, sq_nonneg dy, sq_nonneg (dx - m), sq_nonneg (dx + m),
      sq_nonneg (dy - m), sq_nonneg (dy + m)]

theorem floor_cell_within_one (c x1 x2 : ℚ) (hc : 0 < c) (h : |x1 - x2| ≤ c) :
    ⌊x1 / c⌋ - 1 ≤ ⌊x2 / c⌋ ∧ ⌊x2 / c⌋ ≤ ⌊x1 / c⌋ + 1 := by
  rw [abs_le] at h
  constructor
  · have hle : x1 / c - 1 ≤ x2 / c := by
      rw [div_sub' _ _ _ hc.ne']
      apply div_le_div_of_nonneg_right ?_ hc.le
      · linarith [h.2]
    calc ⌊x1 / c⌋ - 1 = ⌊x1 / c - 1⌋ := by
          rw [show (1 : ℤ) = ((1 : ℤ) : ℤ) from rfl]
          rw [show x1 / c - 1 = x1 / c - ((1 : ℤ) : ℚ) by push_cast; ring]
          rw [Int.floor_sub_int]
      _ ≤ ⌊x2 / c⌋ := Int.floor_le_floor hle
  · have hle : x2 / c ≤ x1 / c + 1 := by
      rw [div_add' _ _ _ hc.ne']
      apply div_le_div_of_nonneg_right ?_ hc.le
      · linarith [h.1]
    calc ⌊x2 / c⌋ ≤ ⌊x1 / c + 1⌋ := Int.floor_le_floor hle
      _ = ⌊x1 / c⌋ + 1 := by
          rw [show x1 / c + 1 = x1 / c + ((1 : ℤ) : ℚ) by push_cast; ring]
          rw [Int.floor_add_int]

theorem mem_scanCells_of_close (cb ce : ℤ × ℤ)
    (hx : cb.1 - 1 ≤ ce.1 ∧ ce.1 ≤ cb.1 + 1)
    (hy : cb.2 - 1 ≤ ce.2 ∧ ce.2 ≤ cb.2 + 1) :
    ce ∈ scanCells cb := by
  obtain ⟨cex, cey⟩ := ce
  dsimp only at hx hy
  have hx' : cex = cb.1 - 1 ∨ cex = cb.1 ∨ cex = cb.1 + 1 := by omega
  have hy' : cey = cb.2 - 1 ∨ cey = cb.2 ∨ cey = cb.2 + 1 := by omega
  rcases hx' with rfl | rfl | rfl <;> rcases hy' with rfl | rfl | rfl <;>
    simp [scanCells]

/-- C8 (amended): the 3x3 cell scan of updateBullets covers every
narrow-phase hit PROVIDED the bullet reach fits in one cell: for a square
hit, when bulletRadius + collisionRadius is at most the cell size; for a
triangle hit, when bulletRadius + R is at most the cell size for some
bound R on the distance of the inset triangle vertices from the entity
position (and the barycentric denominator clears the 1e-8 floor). The
claimed cell size max(38, 43, 2 x largest bullet radius) does NOT imply
this premise for every radius (see the counterexample); it does for the
radii the game produces. -/
theorem spatialHash_scan_covers_hits :
    (∀ (t : Trig) (b : Bullet) (e : GameEntity) (cellSize : ℚ),
      e.kind = .square → 0 < cellSize →
      0 ≤ b.radius + computeEntityCollisionRadius t.sqrt2 e.size →
      b.radius + computeEntityCollisionRadius t.sqrt2 e.size ≤ cellSize →
      bulletHitsEntity t b e = true →
      cellOf cellSize e.pos ∈ scanCells (cellOf cellSize b.pos)) ∧
    (∀ (t : Trig) (b : Bullet) (e : GameEntity) (cellSize R : ℚ),
      e.kind = .triangle → 0 < cellSize → 0 ≤ b.radius → 0 ≤ R →
      distSq (triangleWorldVerts t e.pos e.angle
          (max 1 (e.size - 2 * ENTITY_COLLISION_INSET))).1 e.pos ≤ R ^ 2 →
      distSq (triangleWorldVerts t e.pos e.angle
          (max 1 (e.size - 2 * ENTITY_COLLISION_INSET))).2.1 e.pos ≤ R ^ 2 →
      distSq (triangleWorldVerts t e.pos e.angle
          (max 1 (e.size - 2 * ENTITY_COLLISION_INSET))).2.2 e.pos ≤ R ^ 2 →
      1/100000000 ≤ triangleBaryDen
        (triangleWorldVerts t e.pos e.angle
          (max 1 (e.size - 2 * ENTITY_COLLISION_INSET))).1
        (triangleWorldVerts t e.pos e.angle
          (max 1 (e.size - 2 * ENTITY_COLLISION_INSET))).2.1
        (triangleWorldVerts t e.pos e.angle
          (max 1 (e.size - 2 * ENTITY_COLLISION_INSET))).2.2 →
      b.radius + R ≤ cellSize →
      bulletHitsEntity t b e = true →
      cellOf cellSize e.pos ∈ scanCells (cellOf cellSize b.pos)) := by
  constructor
  · intro t b e cellSize hk hc hreach0 hreach hhit
    rw [bulletHitsEntity, hk] at hhit
    rw [decide_eq_true_eq] at hhit
    unfold distSq at hhit
    have habs := abs_le_of_sq_add_sq_le (b.pos.x - e.pos.x) (b.pos.y - e.pos.y)
      (b.radius + computeEntityCollisionRadius t.sqrt2 e.size) hreach0 hhit
    have hax : |b.pos.x - e.pos.x| ≤ cellSize := le_trans habs.1 hreach
    have hay : |b.pos.y - e.pos.y| ≤ cellSize := le_trans habs.2 hreach
    have h1 := floor_cell_within_one cellSize b.pos.x e.pos.x hc hax
    have h2 := floor_cell_within_one cellSize b.pos.y e.pos.y hc hay
    exact mem_scanCells_of_close _ _ h1 h2
  · intro t b e cellSize R hk hc hr hR hv0 hv1 hv2 hden hreach hhit
    rw [bulletHitsEntity, hk] at hhit
    dsimp only at hhit
    rw [circleIntersectsTriangle, decide_eq_true_eq] at hhit
    have hq := (distSq_closestPointOnTriangle_le b.pos
      (triangleWorldVerts t e.pos e.angle
        (max 1 (e.size - 2 * ENTITY_COLLISION_INSET))).1
      (triangleWorldVerts t e.pos e.angle
        (max 1 (e.size - 2 * ENTITY_COLLISION_INSET))).2.1
      (triangleWorldVerts t e.pos e.angle
        (max 1 (e.size - 2 * ENTITY_COLLISION_INSET))).2.2
      e.pos (R ^ 2) hden hv0 hv1 hv2).2
    have hdist := distSq_triangle_ineq b.pos _ e.pos b.radius R hr hR hhit hq
    unfold distSq at hdist
    have habs := abs_le_of_sq_add_sq_le (b.pos.x - e.pos.x) (b.pos.y - e.pos.y)
      (b.radius + R) (by linarith) hdist
    have hax : |b.pos.x - e.pos.x| ≤ cellSize := le_trans habs.1 hreach
    have hay : |b.pos.y - e.pos.y| ≤ cellSize := le_trans habs.2 hreach
    have h1 := floor_cell_within_one cellSize b.pos.x e.pos.x hc hax
    have h2 := floor_cell_within_one cellSize b.pos.y e.pos.y hc hay
    exact mem_scanCells_of_close _ _ h1 h2

/-- C8 counterexample: with a bullet of radius 20 this tick, the cell
size is max(38, 43, 40) = 43, yet the square narrow-phase test reports an
intersection for a pair whose cells are two columns apart, outside the
3x3 scan neighborhood — the claimed cell-size invariant does not make the
scan exhaustive for every bullet radius. The sqrt2 stand-in 99/70 brackets
the real Math.SQRT2 (its square lies in [2, 2.01]), and the margin of the
inequalities covers that bracket. -/
theorem spatialHash_gap_counterexample :
    (2 : ℚ) ≤ trigZero.sqrt2 ^ 2 ∧ trigZero.sqrt2 ^ 2 ≤ 201/100 ∧
    ([gapBullet].foldl (fun m b => if m < b.radius then b.radius else m)
      BULLET_RADIUS) = 20 ∧
    max SQUARE_SIZE (max TRIANGLE_SIZE ((20 : ℚ) * 2)) = 43 ∧
    bulletHitsEntity trigZero gapBullet gapSquare = true ∧
    cellOf 43 gapSquare.pos ∉ scanCells (cellOf 43 gapBullet.pos) := by
  refine ⟨by norm_num [trigZero], by norm_num [trigZero],
    by norm_num [gapBullet, BULLET_RADIUS], by norm_num [SQUARE_SIZE, TRIANGLE_SIZE],
    ?_, ?_⟩
  · rw [bulletHitsEntity]
    norm_num [gapBullet, gapSquare, trigZero, distSq,
      computeEntityCollisionRadius, ENTITY_COLLISION_INSET, SQUARE_SIZE]
  · have h86 : ⌊(86 : ℚ) / 43⌋ = 2 := by
      rw [Int.floor_eq_iff]
      norm_num
    have h429 : ⌊(429 : ℚ) / 10 / 43⌋ = 0 := by
      rw [Int.floor_eq_iff]
      norm_num
    have h0 : ⌊(0 : ℚ) / 43⌋ = 0 := by
      rw [zero_div]
      exact Int.floor_zero
    have hce : cellOf 43 gapSquare.pos = (2, 0) := by
      unfold cellOf gapSquare
      dsimp only
      rw [h86, h0]
    have hcb : cellOf 43 gapBullet.pos = (0, 0) := by
      unfold cellOf gapBullet
      dsimp only
      rw [h429, h0]
    rw [hce, hcb]
    simp [scanCells]

theorem spatialHash_scan_covers_hits_witness :
    (scenarioSquare.kind = EntityKind.square ∧ (0 : ℚ) < 43 ∧
      0 ≤ scenarioBullet.radius +
        computeEntityCollisionRadius trigZero.sqrt2 scenarioSquare.size ∧
      scenarioBullet.radius +
        computeEntityCollisionRadius trigZero.sqrt2 scenarioSquare.size ≤ 43 ∧
      bulletHitsEntity trigZero scenarioBullet scenarioSquare = true ∧
      cellOf 43 scenarioSquare.pos ∈ scanCells (cellOf 43 scenarioBullet.pos)) := by
  have h1 : (0 : ℚ) ≤ scenarioBullet.radius +
      computeEntityCollisionRadius trigZero.sqrt2 scenarioSquare.size := by
    norm_num [scenarioBullet, scenarioSquare, computeEntityCollisionRadius,
      trigZero, ENTITY_COLLISION_INSET, SQUARE_SIZE]
  have h2 : scenarioBullet.radius +
      computeEntityCollisionRadius trigZero.sqrt2 scenarioSquare.size ≤ 43 := by
    norm_num [scenarioBullet, scenarioSquare, computeEntityCollisionRadius,
      trigZero, ENTITY_COLLISION_INSET, SQUARE_SIZE]
  have h3 : bulletHitsEntity trigZero scenarioBullet scenarioSquare = true := by
    rw [bulletHitsEntity]
    norm_num [scenarioBullet, scenarioSquare, trigZero, distSq,
      computeEntityCollisionRadius, ENTITY_COLLISION_INSET, SQUARE_SIZE]
  exact ⟨rfl, by norm_num, h1, h2, h3,
    spatialHash_scan_covers_hits.1 trigZero scenarioBullet scenarioSquare 43
      rfl (by norm_num) h1 h2 h3⟩

/-! ## Cull invariant of updateBullets (C9) -/

theorem processBullet_hp_or_dead (t : Trig) (cs : ℚ) (s : HitPassState)
    (b : Bullet) (h : 0 < b.hp) :
    0 < (processBullet t cs s b).2.hp ∨ (processBullet t cs s b).2.life ≤ 0 := by
  unfold processBullet
  dsimp only
  split_ifs with hlife
  · exact Or.inl h
  · rcases hfind : List.find?
        (fun e => !s.removed.contains e.id && bulletHitsEntity t b e)
        ((scanCells (cellOf cs b.pos)).flatMap
          (fun c => s.entities.filter (fun e => decide (cellOf cs e.pos = c)))) with
      _ | e
    · rw [hfind]
      exact Or.inl h
    · rw [hfind]
      unfold applyBulletHit
      dsimp only
      by_cases hle : b.hp - SHAPE_BASE_DAMAGE e.kind ≤ 0
      · right
        rw [if_pos hle]
      · left
        push_neg at hle
        exact hle

theorem hitPass_aux_hp_or_dead (t : Trig) (cs : ℚ) :
    ∀ (bs : List Bullet) (s : HitPassState) (acc : List Bullet),
      (∀ b ∈ acc, 0 < b.hp ∨ b.life ≤ 0) → (∀ b ∈ bs, 0 < b.hp) →
      ∀ b' ∈ (bs.foldl (fun acc b =>
          let r := processBullet t cs acc.1 b
          (r.1, acc.2 ++ [r.2])) (s, acc)).2,
        0 < b'.hp ∨ b'.life ≤ 0 := by
  intro bs
  induction bs with
  | nil =>
    intro s acc hacc _ b' hb'
    exact hacc b' hb'
  | cons b bs ih =>
    intro s acc hacc hbs b' hb'
    rw [List.foldl_cons] at hb'
    refine ih _ _ ?_ (fun x hx => hbs x (List.mem_cons_of_mem _ hx)) b' hb'
    intro x hx
    rcases List.mem_append.mp hx with hx | hx
    · exact hacc x hx
    · rw [List.mem_singleton] at hx
      subst hx
      exact processBullet_hp_or_dead t cs s b (hbs b (List.mem_cons_self _ _))

theorem hitPass_hp_or_dead (t : Trig) (cs : ℚ) (bs : List Bullet)
    (s0 : HitPassState) (hbs : ∀ b ∈ bs, 0 < b.hp) :
    ∀ b' ∈ (hitPass t cs bs s0).2, 0 < b'.hp ∨ b'.life ≤ 0 := by
  unfold hitPass
  exact hitPass_aux_hp_or_dead t cs bs s0 [] (by intro x hx; cases hx) hbs

theorem updateBulletsCore_hp_or_dead (t : Trig) (entities : List GameEntity)
    (bullets1 : List Bullet) (stf maxS : ℕ)
    (sq tr : List GameEntity → Bool × List GameEntity)
    (hin : ∀ b ∈ bullets1, 0 < b.hp) :
    ∀ b' ∈ (updateBulletsCore t entities bullets1 stf maxS sq tr).2.1,
      0 < b'.hp ∨ b'.life ≤ 0 := by
  unfold updateBulletsCore
  dsimp only
  split_ifs with hne hrem
  · intro b' hb'
    exact hitPass_hp_or_dead t _ bullets1 ⟨entities, [], 0, 0⟩ hin b' hb'
  · intro b' hb'
    exact hitPass_hp_or_dead t _ bullets1 ⟨entities, [], 0, 0⟩ hin b' hb'
  · intro b' hb'
    exact Or.inl (hin b' hb')

/-- C9: when every bullet enters updateBullets with a positive
penetration budget, every bullet of the returned collection has positive
remaining lifetime, positive penetration budget, and a position strictly
inside the camera rectangle expanded by the 40 px margin: a hit that
exhausts the budget zeroes the lifetime in the same call, and the cull
pass keeps only live in-view bullets. -/
theorem updateBullets_returned_bullets_live (t : Trig) (bullets : List Bullet)
    (entities : List GameEntity) (dt : ℚ) (camera : CameraInfo)
    (stf maxS : ℕ) (sq tr : List GameEntity → Bool × List GameEntity)
    (hin : ∀ b ∈ bullets, 0 < b.hp) :
    ∀ b' ∈ (updateBullets t bullets entities dt camera stf maxS sq tr).1,
      0 < b'.life ∧ 0 < b'.hp ∧ bulletInView camera b'.pos = true := by
  intro b' hb'
  unfold updateBullets at hb'
  dsimp only at hb'
  rw [List.mem_filter] at hb'
  obtain ⟨hmem, hpred⟩ := hb'
  rw [Bool.and_eq_true, Bool.not_eq_true', decide_eq_false_iff_not] at hpred
  have hlife : 0 < b'.life := lt_of_not_le hpred.1
  have hcore := updateBulletsCore_hp_or_dead t entities
    (bullets.map (integrateBullet dt)) stf maxS sq tr
    (by
      intro x hx
      obtain ⟨a, ha, rfl⟩ := List.mem_map.mp hx
      simpa [integrateBullet] using hin a ha) b' hmem
  rcases hcore with hpos | hdead
  · exact ⟨hlife, hpos, hpred.2⟩
  · exact absurd hdead hpred.1

theorem spawnEntityRandomAux_failure (t : Trig) (kind : EntityKind)
    (es : List GameEntity) (nextId : ℕ) (playerPos : V2)
    (mapW mapH safeRadius : ℚ) :
    ∀ l : List RandVals,
      (spawnEntityRandomAux t kind es nextId playerPos mapW mapH safeRadius
          l).1 = false →
      spawnEntityRandomAux t kind es nextId playerPos mapW mapH safeRadius l =
        (false, es, nextId) := by
  intro l
  induction l with
  | nil => intro _; rfl
  | cons r rest ih =>
    intro hfail
    unfold spawnEntityRandomAux at hfail ⊢
    dsimp only at hfail ⊢
    by_cases h1 : (r.rx * mapW - playerPos.x) ^ 2 +
        (r.ry * mapH - playerPos.y) ^ 2 < safeRadius ^ 2
    · rw [if_pos h1] at hfail ⊢
      exact ih hfail
    · rw [if_neg h1] at hfail ⊢
      by_cases h2 : spawnCapReached kind es = true
      · rw [if_pos h2]
      · rw [if_neg h2] at hfail
        simp at hfail

theorem spawnEntityRandomAux_cap (t : Trig) (kind : EntityKind)
    (es : List GameEntity) (nextId : ℕ) (playerPos : V2)
    (mapW mapH safeRadius : ℚ) (hcap : spawnCapReached kind es = true) :
    ∀ l : List RandVals,
      spawnEntityRandomAux t kind es nextId playerPos mapW mapH safeRadius l =
        (false, es, nextId) := by
  intro l
  induction l with
  | nil => rfl
  | cons r rest ih =>
    unfold spawnEntityRandomAux
    dsimp only
    by_cases h1 : (r.rx * mapW - playerPos.x) ^ 2 +
        (r.ry * mapH - playerPos.y) ^ 2 < safeRadius ^ 2
    · rw [if_pos h1]
      exact ih
    · rw [if_neg h1, if_pos hcap]

theorem spawnEntityRandomAux_all_inside (t : Trig) (kind : EntityKind)
    (es : List GameEntity) (nextId : ℕ) (playerPos : V2)
    (mapW mapH safeRadius : ℚ) :
    ∀ l : List RandVals,
      (∀ r ∈ l, (r.rx * mapW - playerPos.x) ^ 2 +
          (r.ry * mapH - playerPos.y) ^ 2 < safeRadius ^ 2) →
      spawnEntityRandomAux t kind es nextId playerPos mapW mapH safeRadius l =
        (false, es, nextId) := by
  intro l
  induction l with
  | nil => intro _; rfl
  | cons r rest ih =>
    intro hin
    unfold spawnEntityRandomAux
    dsimp only
    rw [if_pos (hin r (List.mem_cons_self _ _))]
    exact ih (fun x hx => hin x (List.mem_cons_of_mem _ hx))

theorem spawnEntityRandomAux_success (t : Trig) (kind : EntityKind)
    (es : List GameEntity) (nextId : ℕ) (playerPos : V2)
    (mapW mapH safeRadius : ℚ) :
    ∀ l : List RandVals,
      (spawnEntityRandomAux t kind es nextId playerPos mapW mapH safeRadius
          l).1 = true →
      ∃ e : GameEntity,
        (spawnEntityRandomAux t kind es nextId playerPos mapW mapH safeRadius
            l).2.1 = es ++ [e] ∧ e.kind = kind ∧ e.hp = e.maxHp := by
  intro l
  induction l with
  | nil => intro h; simp [spawnEntityRandomAux] at h
  | cons r rest ih =>
    intro hsucc
    unfold spawnEntityRandomAux at hsucc ⊢
    dsimp only at hsucc ⊢
    by_cases h1 : (r.rx * mapW - playerPos.x) ^ 2 +
        (r.ry * mapH - playerPos.y) ^ 2 < safeRadius ^ 2
    · rw [if_pos h1] at hsucc ⊢
      exact ih hsucc
    · rw [if_neg h1] at hsucc ⊢
      by_cases h2 : spawnCapReached kind es = true
      · rw [if_pos h2] at hsucc
        simp at hsucc
      · rw [if_neg h2]
        exact ⟨mkSpawnedEntity t kind nextId (r.rx * mapW) (r.ry * mapH) r,
          rfl, rfl, rfl⟩

/-- C6: the spawn call examines at most the first 20 draws of the random
stream; it returns failure with the entity collection and id counter
unmodified whenever every attempted point falls inside the safe radius or
whenever the population cap of the requested kind is already reached (and
in fact whenever it returns false at all); when it returns true it has
appended exactly one full-health entity of the requested kind. -/
theorem spawnRandom_bounded_failure_and_success :
    (∀ (t : Trig) (es : List GameEntity) (nextId : ℕ) (playerPos : V2)
        (mapW mapH safeRadius : ℚ) (kind : EntityKind) (s1 s2 : ℕ → RandVals),
      (∀ i < 20, s1 i = s2 i) →
      spawnEntityRandomAvoidingPlayers t es nextId playerPos mapW mapH
          safeRadius kind s1 =
        spawnEntityRandomAvoidingPlayers t es nextId playerPos mapW mapH
          safeRadius kind s2) ∧
    (∀ (t : Trig) (es : List GameEntity) (nextId : ℕ) (playerPos : V2)
        (mapW mapH safeRadius : ℚ) (kind : EntityKind) (s : ℕ → RandVals),
      (∀ i < 20, ((s i).rx * mapW - playerPos.x) ^ 2 +
          ((s i).ry * mapH - playerPos.y) ^ 2 < safeRadius ^ 2) →
      spawnEntityRandomAvoidingPlayers t es nextId playerPos mapW mapH
          safeRadius kind s = (false, es, nextId)) ∧
    (∀ (t : Trig) (es : List GameEntity) (nextId : ℕ) (playerPos : V2)
        (mapW mapH safeRadius : ℚ) (kind : EntityKind) (s : ℕ → RandVals),
      spawnCapReached kind es = true →
      spawnEntityRandomAvoidingPlayers t es nextId playerPos mapW mapH
          safeRadius kind s = (false, es, nextId)) ∧
    (∀ (t : Trig) (es : List GameEntity) (nextId : ℕ) (playerPos : V2)
        (mapW mapH safeRadius : ℚ) (kind : EntityKind) (s : ℕ → RandVals),
      (spawnEntityRandomAvoidingPlayers t es nextId playerPos mapW mapH
          safeRadius kind s).1 = false →
      spawnEntityRandomAvoidingPlayers t es nextId playerPos mapW mapH
          safeRadius kind s = (false, es, nextId)) ∧
    (∀ (t : Trig) (es : List GameEntity) (nextId : ℕ) (playerPos : V2)
        (mapW mapH safeRadius : ℚ) (kind : EntityKind) (s : ℕ → RandVals),
      (spawnEntityRandomAvoidingPlayers t es nextId playerPos mapW mapH
          safeRadius kind s).1 = true →
      ∃ e : GameEntity,
        (spawnEntityRandomAvoidingPlayers t es nextId playerPos mapW mapH
            safeRadius kind s).2.1 = es ++ [e] ∧
          e.kind = kind ∧ e.hp = e.maxHp) := by
  refine ⟨?_, ?_, ?_, ?_, ?_⟩
  · intro t es nextId playerPos mapW mapH safeRadius kind s1 s2 hagree
    unfold spawnEntityRandomAvoidingPlayers
    congr 1
    apply List.map_congr_left
    intro i hi
    exact hagree i (List.mem_range.mp hi)
  · intro t es nextId playerPos mapW mapH safeRadius kind s hin
    unfold spawnEntityRandomAvoidingPlayers
    apply spawnEntityRandomAux_all_inside
    intro r hr
    obtain ⟨i, hi, rfl⟩ := List.mem_map.mp hr
    exact hin i (List.mem_range.mp hi)
  · intro t es nextId playerPos mapW mapH safeRadius kind s hcap
    unfold spawnEntityRandomAvoidingPlayers
    exact spawnEntityRandomAux_cap t kind es nextId playerPos mapW mapH
      safeRadius hcap _
  · intro t es nextId playerPos mapW mapH safeRadius kind s hfail
    exact spawnEntityRandomAux_failure t kind es nextId playerPos mapW mapH
      safeRadius _ hfail
  · intro t es nextId playerPos mapW mapH safeRadius kind s hsucc
    exact spawnEntityRandomAux_success t kind es nextId playerPos mapW mapH
      safeRadius _ hsucc

theorem spawnRandom_bounded_failure_and_success_witness :
    ((∀ i < 20, (((fun _ : ℕ => (⟨0, 0, 0, 0, 0, 0⟩ : RandVals)) i).rx * 0 -
          (0 : ℚ)) ^ 2 +
        (((fun _ : ℕ => (⟨0, 0, 0, 0, 0, 0⟩ : RandVals)) i).ry * 0 - (0 : ℚ)) ^ 2 <
        (1 : ℚ) ^ 2) ∧
      spawnEntityRandomAvoidingPlayers trigZero [] 7 ⟨0, 0⟩ 0 0 1
          EntityKind.square (fun _ => ⟨0, 0, 0, 0, 0, 0⟩) = (false, [], 7)) ∧
    (spawnCapReached EntityKind.triangle
        [scenarioTriangle, scenarioTriangle, scenarioTriangle, scenarioTriangle,
          scenarioTriangle] = true ∧
      spawnEntityRandomAvoidingPlayers trigZero
          [scenarioTriangle, scenarioTriangle, scenarioTriangle,
            scenarioTriangle, scenarioTriangle] 9 ⟨0, 0⟩ 1500 1500 0
          EntityKind.triangle (fun _ => ⟨1, 1, 0, 0, 0, 0⟩) =
        (false,
          [scenarioTriangle, scenarioTriangle, scenarioTriangle,
            scenarioTriangle, scenarioTriangle], 9)) := by
  have hin : ∀ i < 20, (((fun _ : ℕ => (⟨0, 0, 0, 0, 0, 0⟩ : RandVals)) i).rx * 0 -
        (0 : ℚ)) ^ 2 +
      (((fun _ : ℕ => (⟨0, 0, 0, 0, 0, 0⟩ : RandVals)) i).ry * 0 - (0 : ℚ)) ^ 2 <
      (1 : ℚ) ^ 2 := by
    intro i _
    norm_num
  have hcap : spawnCapReached EntityKind.triangle
      [scenarioTriangle, scenarioTriangle, scenarioTriangle, scenarioTriangle,
        scenarioTriangle] = true := by
    rfl
  refine ⟨⟨hin, ?_⟩, hcap, ?_⟩
  · exact spawnRandom_bounded_failure_and_success.2.1 trigZero [] 7 ⟨0, 0⟩ 0 0 1
      EntityKind.square (fun _ => ⟨0, 0, 0, 0, 0, 0⟩) hin
  · exact spawnRandom_bounded_failure_and_success.2.2.1 trigZero _ 9 ⟨0, 0⟩
      1500 1500 0 EntityKind.triangle (fun _ => ⟨1, 1, 0, 0, 0, 0⟩) hcap

theorem updateBullets_returned_bullets_live_witness :
    0 < scenarioBullet.hp ∧
    scenarioBullet ∈ (updateBullets trigZero [scenarioBullet] [] 0
        ⟨-100, -100, 200, 200⟩ 0 2 noSpawn noSpawn).1 ∧
    (0 < scenarioBullet.life ∧ 0 < scenarioBullet.hp ∧
      bulletInView ⟨-100, -100, 200, 200⟩ scenarioBullet.pos = true) := by
  have hmem : scenarioBullet ∈ (updateBullets trigZero [scenarioBullet] [] 0
      ⟨-100, -100, 200, 200⟩ 0 2 noSpawn noSpawn).1 := by
    simp [updateBullets, updateBulletsCore, integrateBullet, bulletInView,
      scenarioBullet]
    norm_num
  refine ⟨by norm_num [scenarioBullet], hmem, ?_⟩
  exact updateBullets_returned_bullets_live trigZero [scenarioBullet] [] 0
    ⟨-100, -100, 200, 200⟩ 0 2 noSpawn noSpawn
    (by intro b hb; rw [List.mem_singleton] at hb; subst hb;
        norm_num [scenarioBullet])
    scenarioBullet hmem

theorem projectPolygon_foldl (axis : V2) :
    ∀ (vs : List V2) (m M : ℚ), m ≤ M →
      vs.foldl (fun mm p =>
        let d := dotV axis p
        if d < mm.1 then (d, mm.2)
        else if mm.2 < d then (mm.1, d) else mm) (m, M) =
      (vs.foldl (fun acc p => min acc (dotV axis p)) m,
        vs.foldl (fun acc p => max acc (dotV axis p)) M) := by
  intro vs
  induction vs with
  | nil => intro m M _; rfl
  | cons p vs ih =>
    intro m M hmM
    rw [List.foldl_cons, List.foldl_cons, List.foldl_cons]
    dsimp only
    by_cases h1 : dotV axis p < m
    · rw [if_pos h1]
      rw [show min m (dotV axis p) = dotV axis p from min_eq_right h1.le]
      rw [show max M (dotV axis p) = M from max_eq_left (h1.le.trans hmM)]
      exact ih _ _ (h1.le.trans hmM)
    · rw [if_neg h1]
      push_neg at h1
      by_cases h2 : M < dotV axis p
      · rw [if_pos h2]
        rw [show min m (dotV axis p) = m from min_eq_left (hmM.trans h2.le)]
        rw [show max M (dotV axis p) = dotV axis p from max_eq_right h2.le]
        exact ih _ _ (hmM.trans h2.le)
      · rw [if_neg h2]
        push_neg at h2
        rw [show min m (dotV axis p) = m from min_eq_left h1]
        rw [show max M (dotV axis p) = M from max_eq_left h2]
        exact ih _ _ hmM

theorem projectPolygon_cons (axis : V2) (v : V2) (vs : List V2) :
    projectPolygon axis (v :: vs) =
      (vs.foldl (fun acc p => min acc (dotV axis p)) (dotV axis v),
        vs.foldl (fun acc p => max acc (dotV axis p)) (dotV axis v)) := by
  unfold projectPolygon
  exact projectPolygon_foldl axis vs (dotV axis v) (dotV axis v) le_rfl

theorem foldl_min_shift (axis d : V2) :
    ∀ (vs : List V2) (a : ℚ),
      vs.foldl (fun acc p => min acc (dotV axis p + dotV axis d)) (a + dotV axis d) =
        vs.foldl (fun acc p => min acc (dotV axis p)) a + dotV axis d := by
  intro vs
  induction vs with
  | nil => intro a; rfl
  | cons p vs ih =>
    intro a
    rw [List.foldl_cons, List.foldl_cons, min_add_add_right, ih]

theorem foldl_max_shift (axis d : V2) :
    ∀ (vs : List V2) (a : ℚ),
      vs.foldl (fun acc p => max acc (dotV axis p + dotV axis d)) (a + dotV axis d) =
        vs.foldl (fun acc p => max acc (dotV axis p)) a + dotV axis d := by
  intro vs
  induction vs with
  | nil => intro a; rfl
  | cons p vs ih =>
    intro a
    rw [List.foldl_cons, List.foldl_cons, max_add_add_right, ih]

theorem projectPolygon_shift (axis d : V2) (v : V2) (vs : List V2) :
    projectPolygon axis (shiftPoly d (v :: vs)) =
      ((projectPolygon axis (v :: vs)).1 + dotV axis d,
        (projectPolygon axis (v :: vs)).2 + dotV axis d) := by
  have hdot : ∀ p : V2, dotV axis ⟨p.x + d.x, p.y + d.y⟩ =
      dotV axis p + dotV axis d := by
    intro p
    unfold dotV
    ring
  unfold shiftPoly
  rw [List.map_cons, projectPolygon_cons, projectPolygon_cons]
  rw [List.foldl_map, List.foldl_map]
  simp only [hdot]
  rw [foldl_min_shift, foldl_max_shift]

theorem dotV_negV (u p : V2) : dotV (negV u) p = -(dotV u p) := by
  unfold dotV negV
  dsimp only
  ring

theorem dotV_negV_negV (u : V2) : dotV (negV u) (negV u) = dotV u u := by
  unfold dotV negV
  dsimp only
  ring

theorem foldl_min_neg (u : V2) :
    ∀ (vs : List V2) (a : ℚ),
      vs.foldl (fun acc p => min acc (-(dotV u p))) (-a) =
        -(vs.foldl (fun acc p => max acc (dotV u p)) a) := by
  intro vs
  induction vs with
  | nil => intro a; rfl
  | cons p vs ih =>
    intro a
    rw [List.foldl_cons, List.foldl_cons, min_neg_neg, ih]

theorem foldl_max_neg (u : V2) :
    ∀ (vs : List V2) (a : ℚ),
      vs.foldl (fun acc p => max acc (-(dotV u p))) (-a) =
        -(vs.foldl (fun acc p => min acc (dotV u p)) a) := by
  intro vs
  induction vs with
  | nil => intro a; rfl
  | cons p vs ih =>
    intro a
    rw [List.foldl_cons, List.foldl_cons, max_neg_neg, ih]

theorem projectPolygon_neg (u : V2) (v : V2) (vs : List V2) :
    projectPolygon (negV u) (v :: vs) =
      (-(projectPolygon u (v :: vs)).2, -(projectPolygon u (v :: vs)).1) := by
  rw [projectPolygon_cons, projectPolygon_cons]
  simp only [dotV_negV]
  exact Prod.ext (foldl_min_neg u vs (dotV u v)) (foldl_max_neg u vs (dotV u v))

theorem overlapOn_neg (u : V2) (a : V2) (A : List V2) (b : V2) (B : List V2) :
    overlapOn (negV u) (a :: A) (b :: B) = overlapOn u (a :: A) (b :: B) := by
  unfold overlapOn
  rw [projectPolygon_neg, projectPolygon_neg]
  dsimp only
  rw [min_neg_neg, max_neg_neg]
  ring

theorem orientAxis_eq (axis dir : V2) :
    orientAxis axis dir = axis ∨ orientAxis axis dir = negV axis := by
  unfold orientAxis negV
  split_ifs
  · right; rfl
  · left; rfl

theorem satLoop_spec (A B : List V2) (dir : V2) :
    ∀ (axes : List V2) (st : Option (ℚ × V2)) (m : ℚ) (ax : V2),
      satLoop A B dir axes st = some (some (m, ax)) →
      (∃ u ∈ axes, ax = orientAxis u dir ∧ m = overlapOn u A B ∧ 0 < m) ∨
        st = some (m, ax) := by
  intro axes
  induction axes with
  | nil =>
    intro st m ax h
    right
    unfold satLoop at h
    exact Option.some.inj h
  | cons u rest ih =>
    intro st m ax h
    unfold satLoop at h
    dsimp only at h
    by_cases hov : overlapOn u A B ≤ 0
    · rw [if_pos hov] at h
      cases h
    · rw [if_neg hov] at h
      push_neg at hov
      cases st with
      | none =>
        rcases ih _ m ax h with ⟨u2, hu2, hax, hm, hm0⟩ | hst
        · exact Or.inl ⟨u2, List.mem_cons_of_mem _ hu2, hax, hm, hm0⟩
        · rw [Option.some_inj, Prod.mk.injEq] at hst
          exact Or.inl ⟨u, List.mem_cons_self _ _, hst.2.symm, hst.1.symm,
            hst.1 ▸ hov⟩
      | some p =>
        obtain ⟨pm, pax⟩ := p
        dsimp only at h
        by_cases hlt : overlapOn u A B < pm
        · rw [if_pos hlt] at h
          rcases ih _ m ax h with ⟨u2, hu2, hax, hm, hm0⟩ | hst
          · exact Or.inl ⟨u2, List.mem_cons_of_mem _ hu2, hax, hm, hm0⟩
          · rw [Option.some_inj, Prod.mk.injEq] at hst
            exact Or.inl ⟨u, List.mem_cons_self _ _, hst.2.symm, hst.1.symm,
              hst.1 ▸ hov⟩
        · rw [if_neg hlt] at h
          rcases ih _ m ax h with ⟨u2, hu2, hax, hm, hm0⟩ | hst
          · exact Or.inl ⟨u2, List.mem_cons_of_mem _ hu2, hax, hm, hm0⟩
          · right
            rw [← hst]

theorem satMTV_spec (t : Trig) (A B : List V2) (cAx cAy cBx cBy : ℚ) (mtv : V2)
    (h : satMTV t A B cAx cAy cBx cBy = some mtv) :
    ∃ u ∈ axesOf t A ++ axesOf t B, ∃ m : ℚ, 0 < m ∧
      m = overlapOn u A B ∧
      mtv = ⟨(orientAxis u ⟨cBx - cAx, cBy - cAy⟩).x * m,
        (orientAxis u ⟨cBx - cAx, cBy - cAy⟩).y * m⟩ := by
  unfold satMTV at h
  rcases hres : satLoop A B ⟨cBx - cAx, cBy - cAy⟩
      (axesOf t A ++ axesOf t B) none with _ | st2
  · rw [hres] at h
    cases h
  · rw [hres] at h
    cases st2 with
    | none => cases h
    | some p =>
      obtain ⟨m, ax⟩ := p
      rcases satLoop_spec A B ⟨cBx - cAx, cBy - cAy⟩
          (axesOf t A ++ axesOf t B) none m ax hres with
        ⟨u, hu, hax, hm, hm0⟩ | hst
      · refine ⟨u, hu, m, hm0, hm, ?_⟩
        rw [← hax]
        exact (Option.some.inj h).symm
      · cases hst

theorem separation_of_ordered (ax : V2) (a0 : V2) (A : List V2) (b0 : V2)
    (B : List V2) (m : ℚ) (dA dB : V2)
    (hdA : dotV ax dA = -(m * (1/2))) (hdB : dotV ax dB = m * (1/2))
    (hm : m = overlapOn ax (a0 :: A) (b0 :: B))
    (hord : orderedOn ax (a0 :: A) (b0 :: B)) :
    overlapOn ax (shiftPoly dA (a0 :: A)) (shiftPoly dB (b0 :: B)) ≤ 0 := by
  unfold overlapOn at hm ⊢
  unfold orderedOn at hord
  rw [show shiftPoly dA (a0 :: A) = shiftPoly dA (a0 :: A) from rfl]
  rw [projectPolygon_shift, projectPolygon_shift, hdA, hdB]
  dsimp only
  have hmin := min_le_left
    ((projectPolygon ax (a0 :: A)).2 + -(m * (1/2)))
    ((projectPolygon ax (b0 :: B)).2 + m * (1/2))
  have hmax := le_max_right
    ((projectPolygon ax (a0 :: A)).1 + -(m * (1/2)))
    ((projectPolygon ax (b0 :: B)).1 + m * (1/2))
  rw [min_eq_left hord.2, max_eq_right hord.1] at hm
  linarith

theorem entityInsetVerts_cons (t : Trig) (e : GameEntity) :
    ∃ (v : V2) (vs : List V2), entityInsetVerts t e = v :: vs := by
  unfold entityInsetVerts
  cases e.kind
  · exact ⟨_, _, rfl⟩
  · exact ⟨_, _, rfl⟩

theorem entityInsetVerts_shift (t : Trig) (e : GameEntity) (d k : V2) :
    entityInsetVerts t
        { e with pos := (⟨e.pos.x + d.x, e.pos.y + d.y⟩ : V2), kick := k } =
      shiftPoly d (entityInsetVerts t e) := by
  obtain ⟨i, pos, vel, kick, angle, angVel, size, kind, hp, maxHp, hitT⟩ := e
  cases kind <;>
    simp [entityInsetVerts, triangleWorldVerts, squareWorldVerts, shiftPoly,
      V2.mk.injEq] <;>
    and_intros <;> ring

/-- C7 (amended): on a collection of exactly two overlapping entities,
resolveEntityEntityCollisions displaces each entity by exactly half the
MTV in opposite directions and adds knockback impulses of equal magnitude
and exactly opposite direction (plus and minus 120 times the normalized
MTV); the MTV is a positive multiple of a unit axis whose overlap equals
the minimum projected overlap, and when the projection intervals of the
two polygons on that oriented axis are ordered consistently with the push
direction, the projections of the two moved polygons no longer overlap.
Nested or inconsistently ordered projections can retain residual overlap
(see the counterexample). -/
theorem resolveEntityEntity_half_mtv_separation (t : Trig) (a b : GameEntity)
    (mtv : V2)
    (hsat : satMTV t (entityInsetVerts t a) (entityInsetVerts t b)
        a.pos.x a.pos.y b.pos.x b.pos.y = some mtv)
    (hunit : ∀ u ∈ axesOf t (entityInsetVerts t a) ++
        axesOf t (entityInsetVerts t b), dotV u u = 1) :
    resolveEntityEntityCollisions t [a, b] =
      [{ a with
          pos := (⟨a.pos.x - mtv.x * (1/2), a.pos.y - mtv.y * (1/2)⟩ : V2),
          kick := (⟨a.kick.x - (normalizeV t mtv).x * 120,
            a.kick.y - (normalizeV t mtv).y * 120⟩ : V2) },
       { b with
          pos := (⟨b.pos.x + mtv.x * (1/2), b.pos.y + mtv.y * (1/2)⟩ : V2),
          kick := (⟨b.kick.x + (normalizeV t mtv).x * 120,
            b.kick.y + (normalizeV t mtv).y * 120⟩ : V2) }] ∧
    ∃ (m : ℚ) (ax : V2), 0 < m ∧ dotV ax ax = 1 ∧
      mtv = ⟨ax.x * m, ax.y * m⟩ ∧
      m = overlapOn ax (entityInsetVerts t a) (entityInsetVerts t b) ∧
      (orderedOn ax (entityInsetVerts t a) (entityInsetVerts t b) →
        overlapOn ax
          (shiftPoly ⟨-(mtv.x * (1/2)), -(mtv.y * (1/2))⟩ (entityInsetVerts t a))
          (shiftPoly ⟨mtv.x * (1/2), mtv.y * (1/2)⟩ (entityInsetVerts t b)) ≤ 0) := by
  constructor
  · show outerLoop t ([a, b]).length [a, b] = _
    have hlen : ([a, b] : List GameEntity).length = 1 + 1 := rfl
    rw [hlen]
    unfold outerLoop
    dsimp only
    unfold innerLoop
    dsimp only
    rw [hsat]
    dsimp only
    unfold innerLoop
    rfl
  · obtain ⟨u, hu, m, hm0, hm, hmtv⟩ := satMTV_spec t _ _ _ _ _ _ mtv hsat
    obtain ⟨a0, A2, hA⟩ := entityInsetVerts_cons t a
    obtain ⟨b0, B2, hB⟩ := entityInsetVerts_cons t b
    set ax := orientAxis u ⟨b.pos.x - a.pos.x, b.pos.y - a.pos.y⟩ with haxdef
    have hax1 : dotV ax ax = 1 := by
      rcases orientAxis_eq u ⟨b.pos.x - a.pos.x, b.pos.y - a.pos.y⟩ with he | he
      · rw [haxdef, he]
        exact hunit u hu
      · rw [haxdef, he, dotV_negV_negV]
        exact hunit u hu
    have hov : overlapOn ax (entityInsetVerts t a) (entityInsetVerts t b) =
        overlapOn u (entityInsetVerts t a) (entityInsetVerts t b) := by
      rcases orientAxis_eq u ⟨b.pos.x - a.pos.x, b.pos.y - a.pos.y⟩ with he | he
      · rw [haxdef, he]
      · rw [haxdef, he, hA, hB, overlapOn_neg]
    refine ⟨m, ax, hm0, hax1, hmtv, by rw [hov]; exact hm, ?_⟩
    intro hord
    have hdA : dotV ax ⟨-(mtv.x * (1/2)), -(mtv.y * (1/2))⟩ = -(m * (1/2)) := by
      rw [hmtv]
      have hexp : dotV ax ⟨-((⟨ax.x * m, ax.y * m⟩ : V2).x * (1/2)),
          -((⟨ax.x * m, ax.y * m⟩ : V2).y * (1/2))⟩ =
          -(m * (1/2)) * dotV ax ax := by
        unfold dotV
        dsimp only
        ring
      rw [hexp, hax1, mul_one]
    have hdB : dotV ax ⟨mtv.x * (1/2), mtv.y * (1/2)⟩ = m * (1/2) := by
      rw [hmtv]
      have hexp : dotV ax ⟨(⟨ax.x * m, ax.y * m⟩ : V2).x * (1/2),
          (⟨ax.x * m, ax.y * m⟩ : V2).y * (1/2)⟩ =
          m * (1/2) * dotV ax ax := by
        unfold dotV
        dsimp only
        ring
      rw [hexp, hax1, mul_one]
    rw [hA, hB] at hord ⊢
    exact separation_of_ordered ax a0 A2 b0 B2 m _ _ hdA hdB
      (by rw [← hA, ← hB, hov, ← hm]) hord

set_option maxHeartbeats 2000000 in
/-- Two concentric squares, one rotated: every axis gives the same
overlap 32, satMTV returns (0, 32), yet after the two half-MTV pushes
the code's own SAT test still reports a collision (with overlap 32/5
along the retained axis), because the projection intervals were nested
rather than ordered: the entities are NOT separated after resolution. -/
theorem satResolution_residual_overlap_counterexample :
    resolveEntityEntityCollisions trigCE [ceA, ceB] = [ceA2, ceB2] ∧
    satMTV trigCE (entityInsetVerts trigCE ceA2) (entityInsetVerts trigCE ceB2)
      ceA2.pos.x ceA2.pos.y ceB2.pos.x ceB2.pos.y = some ⟨0, 32/5⟩ ∧
    overlapOn ⟨0, 1⟩ (entityInsetVerts trigCE ceA2)
      (entityInsetVerts trigCE ceB2) = 32/5 := by
  refine ⟨?_, ?_, ?_⟩
  · norm_num [resolveEntityEntityCollisions, outerLoop, innerLoop, satMTV,
      satLoop, axesOf, polyEdges, edgeNormal, normalizeV, entityInsetVerts,
      squareWorldVerts, overlapOn, projectPolygon, dotV, orientAxis, trigCE,
      ceA, ceB, ceA2, ceB2, List.rotate, V2.mk.injEq]
  · norm_num [satMTV, satLoop, axesOf, polyEdges, edgeNormal, normalizeV,
      entityInsetVerts, squareWorldVerts, overlapOn, projectPolygon, dotV,
      orientAxis, trigCE, ceA, ceB, ceA2, ceB2, List.rotate, V2.mk.injEq]
  · norm_num [overlapOn, projectPolygon, dotV, entityInsetVerts,
      squareWorldVerts, trigCE, ceA, ceB, ceA2, ceB2]

theorem resolveEntityEntity_half_mtv_separation_witness :
    (satMTV trigAxis (entityInsetVerts trigAxis satSquareA)
        (entityInsetVerts trigAxis satSquareB)
        satSquareA.pos.x satSquareA.pos.y satSquareB.pos.x satSquareB.pos.y =
      some ⟨12, 0⟩) ∧
    (resolveEntityEntityCollisions trigAxis [satSquareA, satSquareB] =
      [{ satSquareA with
          pos := (⟨satSquareA.pos.x - (⟨12, 0⟩ : V2).x * (1/2),
            satSquareA.pos.y - (⟨12, 0⟩ : V2).y * (1/2)⟩ : V2),
          kick := (⟨satSquareA.kick.x -
              (normalizeV trigAxis ⟨12, 0⟩).x * 120,
            satSquareA.kick.y - (normalizeV trigAxis ⟨12, 0⟩).y * 120⟩ : V2) },
       { satSquareB with
          pos := (⟨satSquareB.pos.x + (⟨12, 0⟩ : V2).x * (1/2),
            satSquareB.pos.y + (⟨12, 0⟩ : V2).y * (1/2)⟩ : V2),
          kick := (⟨satSquareB.kick.x +
              (normalizeV trigAxis ⟨12, 0⟩).x * 120,
            satSquareB.kick.y + (normalizeV trigAxis ⟨12, 0⟩).y * 120⟩ : V2) }] ∧
    ∃ (m : ℚ) (ax : V2), 0 < m ∧ dotV ax ax = 1 ∧
      (⟨12, 0⟩ : V2) = ⟨ax.x * m, ax.y * m⟩ ∧
      m = overlapOn ax (entityInsetVerts trigAxis satSquareA)
        (entityInsetVerts trigAxis satSquareB) ∧
      (orderedOn ax (entityInsetVerts trigAxis satSquareA)
          (entityInsetVerts trigAxis satSquareB) →
        overlapOn ax
          (shiftPoly ⟨-((⟨12, 0⟩ : V2).x * (1/2)), -((⟨12, 0⟩ : V2).y * (1/2))⟩
            (entityInsetVerts trigAxis satSquareA))
          (shiftPoly ⟨(⟨12, 0⟩ : V2).x * (1/2), (⟨12, 0⟩ : V2).y * (1/2)⟩
            (entityInsetVerts trigAxis satSquareB)) ≤ 0)) := by
  have hsat : satMTV trigAxis (entityInsetVerts trigAxis satSquareA)
      (entityInsetVerts trigAxis satSquareB)
      satSquareA.pos.x satSquareA.pos.y satSquareB.pos.x satSquareB.pos.y =
      some ⟨12, 0⟩ := by
    norm_num [satMTV, satLoop, axesOf, polyEdges, edgeNormal, normalizeV,
      entityInsetVerts, squareWorldVerts, overlapOn, projectPolygon, dotV,
      orientAxis, trigAxis, satSquareA, satSquareB, List.rotate, V2.mk.injEq]
  have hunit : ∀ u ∈ axesOf trigAxis (entityInsetVerts trigAxis satSquareA) ++
      axesOf trigAxis (entityInsetVerts trigAxis satSquareB),
      dotV u u = 1 := by
    intro u hu
    norm_num [axesOf, polyEdges, edgeNormal, normalizeV, entityInsetVerts,
      squareWorldVerts, trigAxis, satSquareA, satSquareB, List.rotate] at hu
    rcases hu with rfl | rfl | rfl | rfl | rfl | rfl | rfl | rfl <;>
      norm_num [dotV]
  exact ⟨hsat, resolveEntityEntity_half_mtv_separation trigAxis satSquareA
    satSquareB ⟨12, 0⟩ hsat hunit⟩

end TankShooter
